import Mathlib

/-!
Verification of the schema-driven file classification and routing engine
(drop-zone classifier).  The definitions below are a shallow embedding of
the Python modules under `src/classification` and
`src/pipelines/classify_drop_zone.py`: paths are lists of segments, rows
are lists of strings, machine state is passed explicitly, and fallible
operations return `Except`/`Option`.
-/

namespace DropZone

/-! ## Paths

Paths are modelled as lists of segments, mirroring `pathlib.PurePath.parts`.
The `/` operator of `pathlib` splits its string argument on `/`, drops
empty components, and restarts from the root when the argument begins with
a separator; `pathJoin` reproduces that behaviour. -/

abbrev Path := List String

/-- Split a character list on a separator character; adjacent separators
produce empty groups, as string splitting does. -/
def splitOnChar (sep : Char) : List Char → List (List Char)
  | [] => [[]]
  | c :: rest =>
      if c = sep then [] :: splitOnChar sep rest
      else
        match splitOnChar sep rest with
        | [] => [[c]]
        | g :: gs => (c :: g) :: gs

/-- Segments contributed by one string argument of the `/` operator:
split on the separator and drop empty components. -/
def segmentsOf (s : String) : List String :=
  ((splitOnChar '/' s.data).map (fun cs => String.mk cs)).filter
    (fun c => c ≠ "")

/-- Whether a string argument of `/` is absolute (begins with the
separator), which makes `pathlib` restart from the root. -/
def isAbsoluteSeg (s : String) : Bool :=
  match s.data with
  | '/' :: _ => true
  | _ => false

/-- Embedding of `pathlib`'s `/`: append the argument's segments, or
restart from the root for an absolute argument. -/
def pathJoin (p : Path) (s : String) : Path :=
  if isAbsoluteSeg s then segmentsOf s
  else (p : List String) ++ segmentsOf s

/-- Embedding of `pathlib.PurePath.name`: the final segment. -/
def pathName (p : Path) : String :=
  ((p : List String).getLast?).getD ""

/-- Split a character list at its last dot: `some (before, after)` when a
dot occurs, `none` otherwise. -/
def splitLastDot : List Char → Option (List Char × List Char)
  | [] => none
  | c :: rest =>
      match splitLastDot rest with
      | some (pre, post) => some (c :: pre, post)
      | none => if c = '.' then some ([], rest) else none

/-- Embedding of `pathlib.PurePath.suffix`: the extension from the last
dot of the name, provided that dot is neither the first nor the last
character of the name. -/
def pathSuffix (p : Path) : String :=
  let name := pathName p
  match splitLastDot name.data with
  | none => ""
  | some (pre, post) =>
      if pre = [] ∨ post = [] then "" else "." ++ String.mk post

/-- Lower-case a string character by character, as Python `str.lower`
acts on ASCII text. -/
def strLower (s : String) : String :=
  String.mk (s.data.map Char.toLower)

/-! ## Dates

A calendar date, with `strftime("%Y-%m-%d")` rendered as zero-padded
decimal fields. -/

structure Date where
  year : Nat
  month : Nat
  day : Nat
deriving DecidableEq, Repr

/-- The decimal digit character for a value below ten. -/
def digitChar (n : Nat) : Char :=
  if n = 0 then '0' else if n = 1 then '1' else if n = 2 then '2'
  else if n = 3 then '3' else if n = 4 then '4' else if n = 5 then '5'
  else if n = 6 then '6' else if n = 7 then '7' else if n = 8 then '8'
  else '9'

/-- Decimal digits with explicit fuel; the fuel only bounds the recursion
depth and any fuel above the number itself is enough. -/
def natToDigitsAux : Nat → Nat → List Char
  | 0, _ => []
  | fuel + 1, n =>
      if n < 10 then [digitChar n]
      else natToDigitsAux fuel (n / 10) ++ [digitChar (n % 10)]

/-- Decimal digits of a natural number, most significant first. -/
def natToDigits (n : Nat) : List Char :=
  natToDigitsAux (n + 1) n

/-- Decimal rendering of a natural number. -/
def natToStr (n : Nat) : String :=
  String.mk (natToDigits n)

/-- Zero-pad a decimal rendering to width 2. -/
def pad2 (n : Nat) : String :=
  if n < 10 then "0" ++ natToStr n else natToStr n

/-- Zero-pad a decimal rendering to width 4. -/
def pad4 (n : Nat) : String :=
  if n < 10 then "000" ++ natToStr n
  else if n < 100 then "00" ++ natToStr n
  else if n < 1000 then "0" ++ natToStr n
  else natToStr n

/-- Embedding of `load_date.strftime("%Y-%m-%d")`. -/
def dateToIso (d : Date) : String :=
  pad4 d.year ++ "-" ++ pad2 d.month ++ "-" ++ pad2 d.day

/-! ## Glob matching

Embedding of `fnmatch.fnmatch` on a case-sensitive filesystem: `*`
matches any run of characters, `?` a single character, `[...]` a
character class (with `!` negation and `-` ranges); an unterminated `[`
is a literal bracket. -/

/-- Does a character class body (the characters strictly between `[` and
`]`) accept the character `c`?  A `-` between two characters denotes a
range; elsewhere it is literal. -/
def classAccepts : List Char → Char → Bool
  | [], _ => false
  | a :: '-' :: b :: rest, c =>
      (decide (a ≤ c) && decide (c ≤ b)) || classAccepts rest c
  | a :: rest, c => (a = c) || classAccepts rest c

/-- Split a character-class body at the terminating `]`, returning the
body and the rest of the pattern; `none` when no `]` closes the class
(in which case `fnmatch` treats `[` as a literal). -/
def splitClass : List Char → Option (List Char × List Char)
  | [] => none
  | ']' :: rest => some ([], rest)
  | c :: rest =>
      match splitClass rest with
      | none => none
      | some (body, rem) => some (c :: body, rem)

/-- As `splitClass`, but a `]` in first position belongs to the body, as
in `fnmatch.translate`. -/
def splitClassBody : List Char → Option (List Char × List Char)
  | ']' :: rest =>
      (match splitClass rest with
       | none => none
       | some (body, rem) => some (']' :: body, rem))
  | ps => splitClass ps

/-- Core glob matcher on character lists with explicit fuel; every
recursive call shortens pattern plus string, so any fuel above their
combined length is enough. -/
def globMatchAux : Nat → List Char → List Char → Bool
  | 0, _, _ => false
  | fuel + 1, ps, s =>
      match ps, s with
      | [], [] => true
      | [], _ :: _ => false
      | '*' :: ps', [] => globMatchAux fuel ps' []
      | '*' :: ps', c :: s' =>
          globMatchAux fuel ps' (c :: s') || globMatchAux fuel ('*' :: ps') s'
      | '?' :: _, [] => false
      | '?' :: ps', _ :: s' => globMatchAux fuel ps' s'
      | '[' :: ps', s =>
          let negBody : Bool × List Char :=
            match ps' with
            | '!' :: rest => (true, rest)
            | _ => (false, ps')
          (match splitClassBody negBody.2 with
           | none =>
               (match s with
                | '[' :: s' => globMatchAux fuel ps' s'
                | _ => false)
           | some (body, rest) =>
               (match s with
                | c :: s' =>
                    (classAccepts body c != negBody.1) &&
                      globMatchAux fuel rest s'
                | [] => false))
      | p :: ps', c :: s' => (p = c) && globMatchAux fuel ps' s'
      | _ :: _, [] => false

/-- Core glob matcher on character lists; first argument is the pattern,
second the candidate string. -/
def globMatch (ps s : List Char) : Bool :=
  globMatchAux (ps.length + s.length + 1) ps s

/-- Embedding of `fnmatch.fnmatch(filename, pattern)` on a
case-sensitive platform. -/
def fnmatchB (filename pattern : String) : Bool :=
  globMatch pattern.data filename.data

/-! ## Schema catalog data model (`schemas_loader.Schema`) -/

/-- In-memory representation of a dataset schema definition. -/
structure Schema where
  id : String
  source_system : String
  dataset_name : String
  version : String := "1.0"
  description : Option String := none
  file_patterns : List String := []
  expected_delimiter : Option String := none
  expected_encoding : Option String := none
  allow_extra_columns : Bool := true
  required_columns : List String := []
  optional_columns : List String := []
deriving DecidableEq, Repr

/-! ## Probed file (`file_inspector.FileProfile`) -/

/-- Lightweight description of a file found in the drop zone. -/
structure FileProfile where
  path : Path
  extension : String
  rows : List (List String)
deriving DecidableEq, Repr

/-! ## Matcher (`matcher.py`) -/

/-- Result of trying to match a file to a schema. -/
structure MatchResult where
  status : String
  schema : Option Schema
  reason : Option String := none
  header_row_index : Option Nat := none
  matched_columns : List String := []
deriving DecidableEq, Repr

/-- Embedding of `_matches_any_pattern`: the filename matches at least
one of the given glob patterns. -/
def matchesAnyPattern (filename : String) (patterns : List String) : Bool :=
  patterns.any (fun pattern => fnmatchB filename pattern)

/-- The set of non-empty cells of a row (`{cell for cell in row if cell}`),
kept as the sublist of non-empty cells. -/
def rowValues (row : List String) : List String :=
  row.filter (fun cell => cell ≠ "")

/-- Boolean subset test `required.issubset(row_values)` for one row. -/
def requiredSubsetB (schema : Schema) (row : List String) : Bool :=
  schema.required_columns.all (fun c => (rowValues row).contains c)

/-- Scanning loop of `_find_header_row_for_schema`: rows are visited top
to bottom with their indices; rows whose non-empty-cell set is empty are
skipped; the first row containing every required column is returned. -/
def findHeaderAux (schema : Schema) :
    List (List String) → Nat → Bool × Option Nat × List String
  | [], _ => (false, none, [])
  | row :: rest, idx =>
      if rowValues row = [] then findHeaderAux schema rest (idx + 1)
      else if requiredSubsetB schema row then
        (true, some idx, schema.required_columns.dedup)
      else findHeaderAux schema rest (idx + 1)

/-- Embedding of `_find_header_row_for_schema`: returns
`(is_match, header_row_index, matched_columns)`. -/
def find_header_row_for_schema (schema : Schema) (rows : List (List String)) :
    Bool × Option Nat × List String :=
  findHeaderAux schema rows 0

/-- Selection loop of `match_file_to_schema` step 2: thread the current
best schema, its header row index, and the best required-column count
(initially `-1`) through the candidate list. -/
def selectBest (rows : List (List String)) :
    List Schema → Option Schema × Option Nat × Int →
      Option Schema × Option Nat × Int
  | [], st => st
  | schema :: rest, (bs, bi, bc) =>
      match find_header_row_for_schema schema rows with
      | (is_match, header_idx, _) =>
          match is_match, header_idx with
          | true, some idx =>
              let rc : Int := schema.required_columns.length
              let replace : Bool :=
                rc > bc ||
                  (rc = bc &&
                    (match bi with
                     | none => true
                     | some b => idx < b))
              if replace then
                selectBest rows rest (some schema, some idx, rc)
              else
                selectBest rows rest (bs, bi, bc)
          | _, _ => selectBest rows rest (bs, bi, bc)

/-- The `unclassified` outcome for a file matching no schema pattern. -/
def unclassifiedNoPattern : MatchResult :=
  { status := "unclassified", schema := none,
    reason := some "no_file_pattern_match",
    header_row_index := none, matched_columns := [] }

/-- The `unclassified` outcome when no candidate found a header. -/
def unclassifiedNoHeader : MatchResult :=
  { status := "unclassified", schema := none,
    reason := some "no_header_match_for_any_candidate",
    header_row_index := none, matched_columns := [] }

/-- Embedding of `match_file_to_schema`. -/
def match_file_to_schema (file_profile : FileProfile) (schemas : List Schema) :
    MatchResult :=
  let filename := pathName file_profile.path
  let candidate_schemas : List Schema :=
    schemas.filter (fun s => matchesAnyPattern filename s.file_patterns)
  if candidate_schemas = [] then unclassifiedNoPattern
  else
    match selectBest file_profile.rows candidate_schemas (none, none, -1) with
    | (none, _, _) => unclassifiedNoHeader
    | (some best, bi, _) =>
        { status := "matched", schema := some best, reason := none,
          header_row_index := bi,
          matched_columns := best.required_columns }

/-! ## Router (`router.py`) -/

/-- Embedding of `build_raw_target_path`:
`{root}/raw/{source_system}/{dataset_name}/load_date=YYYY-MM-DD/{filename}`. -/
def build_raw_target_path (datalake_root : Path) (schema : Schema)
    (load_date : Date) (original_filename : String) : Path :=
  pathJoin
    (pathJoin
      (pathJoin
        (pathJoin (pathJoin datalake_root "raw") schema.source_system)
        schema.dataset_name)
      ("load_date=" ++ dateToIso load_date))
    original_filename

/-- Embedding of `build_unclassified_path`:
`{root}/drop_zone/unclassified/{filename}`. -/
def build_unclassified_path (datalake_root : Path)
    (original_filename : String) : Path :=
  pathJoin (pathJoin (pathJoin datalake_root "drop_zone") "unclassified")
    original_filename

/-- Embedding of `build_rejected_path`:
`{root}/drop_zone/rejected/{filename}`. -/
def build_rejected_path (datalake_root : Path)
    (original_filename : String) : Path :=
  pathJoin (pathJoin (pathJoin datalake_root "drop_zone") "rejected")
    original_filename

/-! ## File prober (`header_detector.py`, `file_inspector.py`)

A cell read from disk is either a null/NaN-like value or a string; a file
on disk is a path together with a regular-file flag and its raw rows. -/

/-- Raw cell value as delivered by the csv module or pandas. -/
inductive CellVal where
  | null
  | str (s : String)
deriving DecidableEq, Repr

/-- Strip leading and trailing whitespace from a character list. -/
def trimChars (cs : List Char) : List Char :=
  ((cs.dropWhile Char.isWhitespace).reverse.dropWhile
    Char.isWhitespace).reverse

/-- Embedding of Python `str.strip()`: drop whitespace at both ends. -/
def strTrim (s : String) : String :=
  String.mk (trimChars s.data)

/-- Embedding of `_normalize_cell`: null/NaN-like values become the empty
string, everything else its trimmed string form. -/
def normalize_cell : CellVal → String
  | .null => ""
  | .str s => strTrim s

/-- A directory entry as the prober sees it: the path, whether it is a
regular file, and the raw rows its content parses to. -/
structure DiskEntry where
  path : Path
  isRegularFile : Bool
  rawRows : List (List CellVal)
deriving DecidableEq, Repr

/-- Errors raised by the prober: `FileNotFoundError` from `inspect_file`,
`ValueError` (unsupported extension) from `read_rows`. -/
inductive ProbeError where
  | fileNotFound (msg : String)
  | unsupportedFormat (msg : String)
deriving DecidableEq, Repr

/-- Row cap default of `inspect_file` / `read_rows`. -/
def defaultMaxRows : Nat := 50

/-- Embedding of `read_rows`: dispatch on the lower-cased suffix, read at
most `max_rows` rows, normalize every cell; any other extension raises
`ValueError`. -/
def read_rows (entry : DiskEntry) (max_rows : Nat) :
    Except ProbeError (List (List String)) :=
  let ext := strLower (pathSuffix entry.path)
  if ext = ".csv" then
    .ok ((entry.rawRows.take max_rows).map (fun row => row.map normalize_cell))
  else if ext = ".xlsx" ∨ ext = ".xls" then
    .ok ((entry.rawRows.take max_rows).map (fun row => row.map normalize_cell))
  else
    .error (.unsupportedFormat ("Unsupported file extension: " ++ ext))

/-- Embedding of `inspect_file`: fail for non-regular files, read the
bounded row prefix, and package a `FileProfile`. -/
def inspect_file (entry : DiskEntry) (max_rows : Nat) :
    Except ProbeError FileProfile :=
  if ¬ entry.isRegularFile then
    .error (.fileNotFound "File does not exist")
  else
    (read_rows entry max_rows).map (fun rows =>
      { path := entry.path,
        extension := strLower (pathSuffix entry.path),
        rows := rows })

/-! ## File relocator (`file_mover.py`)

The filesystem is explicit state: the list of paths of the files that
exist.  A move removes the source path and adds the target path.  The
wall-clock timestamp of the Python record is environment input with no
bearing on any property here and is omitted. -/

/-- Explicit filesystem state: the existing file paths. -/
abbrev FsState := List Path

/-- Embedding of `shutil.move`: the file leaves its source path and
appears at the target path. -/
def moveFile (st : FsState) (src tgt : Path) : FsState :=
  (st.erase src) ++ [tgt]

/-- Single record describing the result of classifying and moving one
file (`ClassificationRecord`). -/
structure ClassificationRecord where
  original_path : Path
  target_path : Option Path
  status : String
  schema_id : Option String
  source_system : Option String
  dataset_name : Option String
  reason : Option String
  header_row_index : Option Nat
deriving DecidableEq, Repr

/-- Embedding of `move_file_according_to_result`: choose the destination
from the match status, move the file, and build the record. -/
def move_file_according_to_result (file_profile : FileProfile)
    (mtch : MatchResult) (datalake_root : Path) (load_date : Date)
    (st : FsState) : FsState × ClassificationRecord :=
  let original_path := file_profile.path
  let filename := pathName original_path
  let fallback : Path :=
    if mtch.status = "unclassified" then
      build_unclassified_path datalake_root filename
    else if mtch.status = "rejected" then
      build_rejected_path datalake_root filename
    else
      -- defensive fallback: unknown status treated as unclassified
      build_unclassified_path datalake_root filename
  let chosen : Path × Option String × Option String × Option String :=
    match mtch.schema with
    | some s =>
        if mtch.status = "matched" then
          (build_raw_target_path datalake_root s load_date filename,
            some s.id, some s.source_system, some s.dataset_name)
        else (fallback, none, none, none)
    | none => (fallback, none, none, none)
  let target_path := chosen.1
  (moveFile st original_path target_path,
    { original_path := original_path,
      target_path := some target_path,
      status := mtch.status,
      schema_id := chosen.2.1,
      source_system := chosen.2.2.1,
      dataset_name := chosen.2.2.2,
      reason := mtch.reason,
      header_row_index := mtch.header_row_index })

/-! ## Batch orchestrator (`classify_drop_zone.py`)

One incoming file of a run is its filename together with the outcome of
probing it (the extension and bounded rows on success, the exception text
on failure) and, when the move call itself raises, that exception's text.
These are the two points at which the loop body of
`run_classify_drop_zone` can raise. -/

/-- An incoming file of one batch run, with its environment-determined
probe and move outcomes. -/
structure IncomingJob where
  name : String
  probe : Except String (String × List (List String))
  moveError : Option String
deriving Repr

/-- The path of a pending file inside `drop_zone/incoming`. -/
def incomingPath (root : Path) (name : String) : Path :=
  pathJoin (pathJoin (pathJoin root "drop_zone") "incoming") name

/-- Embedding of `_reject_on_error`: move the file from its original
location to the rejected area and record the reason. -/
def reject_on_error (path : Path) (datalake_root : Path) (reason : String)
    (st : FsState) : FsState × ClassificationRecord :=
  let target := build_rejected_path datalake_root (pathName path)
  (moveFile st path target,
    { original_path := path,
      target_path := some target,
      status := "rejected",
      schema_id := none,
      source_system := none,
      dataset_name := none,
      reason := some reason,
      header_row_index := none })

/-- Loop body of `run_classify_drop_zone` for one file: probe, match and
move inside a `try`, with any exception routed to `_reject_on_error`. -/
def processOne (root : Path) (load_date : Date) (schemas : List Schema)
    (st : FsState) (job : IncomingJob) : FsState × ClassificationRecord :=
  let path := incomingPath root job.name
  match job.probe with
  | .error e => reject_on_error path root e st
  | .ok pr =>
      match job.moveError with
      | some e => reject_on_error path root e st
      | none =>
          let file_profile : FileProfile :=
            { path := path, extension := pr.1, rows := pr.2 }
          let mtch := match_file_to_schema file_profile schemas
          move_file_according_to_result file_profile mtch root load_date st

/-- The per-file loop of `run_classify_drop_zone`: fold `processOne` over
the pending files, accumulating records in order. -/
def runBatch (root : Path) (load_date : Date) (schemas : List Schema) :
    List IncomingJob → FsState → FsState × List ClassificationRecord
  | [], st => (st, [])
  | job :: rest, st =>
      let p := processOne root load_date schemas st job
      let q := runBatch root load_date schemas rest p.1
      (q.1, p.2 :: q.2)

/-! ## Schema catalog loader (`schemas_loader.py`)

A parsed schema definition file is a record of optional fields (`none`
models an absent or null YAML key); a schema directory is `none` when
missing, otherwise the list of `(filename, parsed content)` pairs of its
definition files. -/

/-- Parsed YAML content of one schema definition file. -/
structure RawSchemaData where
  id : Option String := none
  source_system : Option String := none
  dataset_name : Option String := none
  version : Option String := none
  description : Option String := none
  file_patterns : Option (List String) := none
  expected_delimiter : Option String := none
  expected_encoding : Option String := none
  allow_extra_columns : Option Bool := none
  required_columns : Option (List String) := none
  optional_columns : Option (List String) := none
deriving DecidableEq, Repr

/-- A string key counts as missing when absent, null, or empty
(`data[key] in (None, [], "")`). -/
def optStrMissing : Option String → Bool
  | none => true
  | some s => s = ""

/-- A list key counts as missing when absent, null, or the empty list. -/
def optListMissing : Option (List String) → Bool
  | none => true
  | some xs => xs = []

/-- The required keys reported missing by `load_schema`, in check order. -/
def missingKeys (data : RawSchemaData) : List String :=
  (if optStrMissing data.id then ["id"] else []) ++
  (if optStrMissing data.source_system then ["source_system"] else []) ++
  (if optStrMissing data.dataset_name then ["dataset_name"] else []) ++
  (if optListMissing data.file_patterns then ["file_patterns"] else []) ++
  (if optListMissing data.required_columns then ["required_columns"] else [])

/-- The `Schema` built from one valid parsed definition, field defaults
as in `load_schema`. -/
def schemaOfData (data : RawSchemaData) : Schema :=
  { id := data.id.getD "",
    source_system := data.source_system.getD "",
    dataset_name := data.dataset_name.getD "",
    version := data.version.getD "1.0",
    description := data.description,
    file_patterns := data.file_patterns.getD [],
    expected_delimiter := data.expected_delimiter,
    expected_encoding := data.expected_encoding,
    allow_extra_columns := data.allow_extra_columns.getD true,
    required_columns := data.required_columns.getD [],
    optional_columns := data.optional_columns.getD [] }

/-- Embedding of `load_schema`: validate the required keys of one parsed
definition and build a `Schema`, or raise `ValueError`. -/
def load_schema (name : String) (data : RawSchemaData) :
    Except String Schema :=
  let missing := missingKeys data
  if missing ≠ [] then
    .error ("Schema file " ++ name ++ " is missing required keys: " ++
      String.intercalate ", " missing)
  else
    .ok (schemaOfData data)

/-- One parsed definition carries every required key non-empty. -/
def schemaDataValid (data : RawSchemaData) : Bool :=
  !(optStrMissing data.id) && !(optStrMissing data.source_system) &&
    !(optStrMissing data.dataset_name) &&
    !(optListMissing data.file_patterns) &&
    !(optListMissing data.required_columns)

/-- Definition files sorted by filename, as `sorted(...glob...)` yields
them; the sort is stable. -/
def sortByName (entries : List (String × RawSchemaData)) :
    List (String × RawSchemaData) :=
  List.insertionSort (fun a b => a.1 ≤ b.1) entries

/-- Embedding of `load_all_schemas`: fail when the directory is missing,
otherwise load every definition file in filename order, failing on the
first invalid one. -/
def load_all_schemas (dir : Option (List (String × RawSchemaData))) :
    Except String (List Schema) :=
  match dir with
  | none => .error "Schema directory does not exist"
  | some entries =>
      (sortByName entries).mapM (fun e => load_schema e.1 e.2)

/-! ## Derived notions used by the theorems -/

/-- The candidate schemas of a file: those whose filename patterns match
(step 1 of the matcher). -/
def candidateSchemas (filename : String) (schemas : List Schema) :
    List Schema :=
  schemas.filter (fun s => matchesAnyPattern filename s.file_patterns)

/-- The header row index the scan finds for a schema, when it finds one. -/
def foundHeaderIdx (rows : List (List String)) (s : Schema) : Option Nat :=
  match find_header_row_for_schema s rows with
  | (true, some i, _) => some i
  | _ => none

/-- The candidate schemas that found a header row, paired with their
header row indices, in catalog order. -/
def foundCandidates (rows : List (List String)) (cands : List Schema) :
    List (Schema × Nat) :=
  cands.filterMap (fun s => (foundHeaderIdx rows s).map (fun i => (s, i)))

/-- The required-column count of a schema, as the matcher measures it. -/
def reqCount (s : Schema) : Nat := s.required_columns.length

/-- Does the new candidate displace the current best?  More required
columns wins; on a tie, a strictly lower header row index wins. -/
def betterB (x acc : Schema × Nat) : Bool :=
  decide (reqCount acc.1 < reqCount x.1) ||
    (decide (reqCount x.1 = reqCount acc.1) && decide (x.2 < acc.2))

/-- Keep the better of the current best and the new candidate. -/
def pickBest (acc x : Schema × Nat) : Schema × Nat :=
  if betterB x acc then x else acc

/-- The matched outcome built from a winning schema and header index. -/
def matchedResult (w : Schema × Nat) : MatchResult :=
  { status := "matched", schema := some w.1, reason := none,
    header_row_index := some w.2,
    matched_columns := w.1.required_columns }

/-! ## Path well-formedness and storage areas

A string is a well-formed path segment when joining it contributes
exactly itself as one segment: it is non-empty, relative, and free of the
separator.  Filenames listed from a directory and sane schema identifiers
have this property. -/

/-- Joining this string appends exactly one segment, the string itself. -/
def wfSegment (s : String) : Prop :=
  segmentsOf s = [s] ∧ isAbsoluteSeg s = false

instance (s : String) : Decidable (wfSegment s) := by
  unfold wfSegment
  exact instDecidableAnd

/-- Boolean segment-prefix test between paths. -/
def hasPrefixSeg : List String → List String → Bool
  | [], _ => true
  | _ :: _, [] => false
  | a :: as, b :: bs => (a = b) && hasPrefixSeg as bs

/-- Membership flags of a path for the three terminal areas: the raw
zone, the unclassified holding area, and the rejected holding area. -/
def areaFlags (root p : Path) : List Bool :=
  [hasPrefixSeg ((root : List String) ++ ["raw"]) p,
   hasPrefixSeg ((root : List String) ++ ["drop_zone", "unclassified"]) p,
   hasPrefixSeg ((root : List String) ++ ["drop_zone", "rejected"]) p]

/-- A path lies in exactly one of the three terminal areas. -/
def inExactlyOneArea (root p : Path) : Prop :=
  (areaFlags root p).count true = 1

/-- The classification record one job produces; `processOne` builds the
record independently of the filesystem state. -/
def recordOf (root : Path) (load_date : Date) (schemas : List Schema)
    (job : IncomingJob) : ClassificationRecord :=
  (processOne root load_date schemas [] job).2

/-- The destination path of one job's file. -/
def destOf (root : Path) (load_date : Date) (schemas : List Schema)
    (job : IncomingJob) : Path :=
  (recordOf root load_date schemas job).target_path.getD []

/-! ## Specification-side definitions

These two definitions transcribe sentences of the specification, to be
compared against the embedded code. -/

/-- Modelled from the spec: a row is a valid header for a schema iff the
set of its non-empty cells is a superset of the schema's required-column
set, under exact case-sensitive string equality. -/
def headerQualifiesSpec (schema : Schema) (row : List String) : Bool :=
  schema.required_columns.all (fun c => (rowValues row).contains c)

/-- The least row index whose row qualifies as a header, scanning top to
bottom. -/
def leastHeaderIdx (schema : Schema) : List (List String) → Option Nat
  | [] => none
  | row :: rest =>
      if headerQualifiesSpec schema row then some 0
      else (leastHeaderIdx schema rest).map (fun i => i + 1)

/-- Digit value of a decimal digit character. -/
def charDigitVal (c : Char) : Option Nat :=
  if c = '0' then some 0 else if c = '1' then some 1
  else if c = '2' then some 2 else if c = '3' then some 3
  else if c = '4' then some 4 else if c = '5' then some 5
  else if c = '6' then some 6 else if c = '7' then some 7
  else if c = '8' then some 8 else if c = '9' then some 9 else none

/-- Left fold reading a decimal digit string; `none` on a non-digit. -/
def digitsVal (cs : List Char) : Option Nat :=
  cs.foldl
    (fun acc c => acc.bind (fun v => (charDigitVal c).map (fun d => 10 * v + d)))
    (some 0)

/-- Decimal number parse; empty input is rejected. -/
def parseDecimal (cs : List Char) : Option Nat :=
  if cs.isEmpty then none else digitsVal cs

/-- Remove a character-list prefix, failing when it is not a prefix. -/
def dropCharsPrefix : List Char → List Char → Option (List Char)
  | [], s => some s
  | _ :: _, [] => none
  | c :: cs, x :: xs => if c = x then dropCharsPrefix cs xs else none

/-- Parse the three dash-separated decimal fields of an ISO date. -/
def parseThreeParts : List (List Char) → Option Date
  | [y, m, d] =>
      (parseDecimal y).bind (fun yy =>
        (parseDecimal m).bind (fun mm =>
          (parseDecimal d).map (fun dd => ⟨yy, mm, dd⟩)))
  | _ => none

/-- Modelled from the spec: read a `load_date=YYYY-MM-DD` path segment
back into a date. -/
def parseLoadDateSeg (s : String) : Option Date :=
  (dropCharsPrefix "load_date=".data s.data).bind (fun rest =>
    parseThreeParts (splitOnChar '-' rest))

/-- Remove a segment prefix from a path, failing when it is not a
prefix. -/
def dropPrefixSeg : List String → List String → Option (List String)
  | [], p => some p
  | _ :: _, [] => none
  | a :: as, b :: bs => if a = b then dropPrefixSeg as bs else none

/-- Modelled from the spec: parse a matched raw-zone path by its segments
relative to the root, recovering source system, dataset name, and load
date. -/
def parseRawTargetPath (root : Path) (p : Path) :
    Option (String × String × Date) :=
  match dropPrefixSeg root p with
  | some (seg1 :: src :: ds :: lds :: _fname :: []) =>
      if seg1 = "raw" then
        (parseLoadDateSeg lds).map (fun d => (src, ds, d))
      else none
  | _ => none

/-! ## Sample data for concrete instantiations -/

/-- Sample schema requiring two columns. -/
def sampleSchemaAB : Schema :=
  { id := "sf_ab", source_system := "salesforce", dataset_name := "ab_data",
    file_patterns := ["acct_*.csv"], required_columns := ["A", "B"] }

/-- Sample schema requiring four columns, matching the same filenames. -/
def sampleSchemaABCD : Schema :=
  { id := "sf_abcd", source_system := "salesforce",
    dataset_name := "abcd_data", file_patterns := ["acct_*.csv"],
    required_columns := ["A", "B", "C", "D"] }

/-- A second two-column schema, to exercise the catalog-order tie-break. -/
def sampleSchemaCD : Schema :=
  { id := "sf_cd", source_system := "salesforce", dataset_name := "cd_data",
    file_patterns := ["acct_*.csv"], required_columns := ["C", "D"] }

/-- A schema with an empty required-column list; the loader never
produces one, but the matcher accepts any `Schema` value. -/
def sampleSchemaEmptyReq : Schema :=
  { id := "empty", source_system := "x", dataset_name := "y",
    file_patterns := ["*"], required_columns := [] }

/-- A schema whose source system contains a path separator. -/
def sampleSchemaSlash : Schema :=
  { id := "slashy", source_system := "a/b", dataset_name := "ds",
    file_patterns := ["*"], required_columns := ["A"] }

/-- Sample probed file whose first row carries all four columns. -/
def sampleProfile : FileProfile :=
  { path := ["dl", "drop_zone", "incoming", "acct_2024.csv"],
    extension := ".csv",
    rows := [["A", "B", "C", "D"], ["A", "B"]] }

/-- Sample date used by concrete router instantiations. -/
def sampleDate : Date := { year := 2024, month := 3, day := 7 }

/-- Sample probed file whose name matches no schema pattern. -/
def sampleProfileRandom : FileProfile :=
  { path := ["dl", "drop_zone", "incoming", "random.csv"],
    extension := ".csv",
    rows := [["A", "B"]] }

/-- Sample probed file matching patterns but containing no header row. -/
def sampleProfileNoHeader : FileProfile :=
  { path := ["dl", "drop_zone", "incoming", "acct_2024.csv"],
    extension := ".csv",
    rows := [["Z"]] }

/-- Sample storage root. -/
def sampleRoot : Path := ["dl"]

/-- A job whose probe raises. -/
def sampleJobErr : IncomingJob :=
  { name := "bad.bin", probe := .error "boom", moveError := none }

/-- A job probed successfully and matched by `sampleSchemaAB`. -/
def sampleJobOk : IncomingJob :=
  { name := "acct_2024.csv",
    probe := .ok (".csv", [["A", "B", "C", "D"], ["A", "B"]]),
    moveError := none }

/-- A job probed successfully whose move call raises. -/
def sampleJobMoveErr : IncomingJob :=
  { name := "acct_x.csv",
    probe := .ok (".csv", [["A", "B"]]),
    moveError := some "disk full" }

/-- A directory entry that is not a regular file. -/
def sampleEntryMissing : DiskEntry :=
  { path := ["dl", "drop_zone", "incoming", "ghost.csv"],
    isRegularFile := false, rawRows := [] }

/-- A regular file with an unsupported extension. -/
def sampleEntryUnsupported : DiskEntry :=
  { path := ["dl", "drop_zone", "incoming", "notes.txt"],
    isRegularFile := true, rawRows := [[.str "hello"]] }

/-- A regular CSV file with three raw rows. -/
def sampleEntryCsv : DiskEntry :=
  { path := ["dl", "drop_zone", "incoming", "acct_2024.CSV"],
    isRegularFile := true,
    rawRows := [[.str " A ", .null], [.str "1"], [.str "2"]] }

/-- A valid parsed schema definition. -/
def sampleRawValidA : RawSchemaData :=
  { id := some "sf_a", source_system := some "salesforce",
    dataset_name := some "alpha", file_patterns := some ["a_*.csv"],
    required_columns := some ["A"] }

/-- A second valid parsed schema definition. -/
def sampleRawValidB : RawSchemaData :=
  { id := some "sf_b", source_system := some "salesforce",
    dataset_name := some "beta", file_patterns := some ["b_*.csv"],
    required_columns := some ["B", "C"] }

/-- A parsed definition whose id is empty, hence invalid. -/
def sampleRawInvalid : RawSchemaData :=
  { id := some "", source_system := some "salesforce",
    dataset_name := some "gamma", file_patterns := some ["g_*.csv"],
    required_columns := some ["G"] }

/-- Two valid definition files listed out of filename order. -/
def sampleEntriesValid : List (String × RawSchemaData) :=
  [("b.yaml", sampleRawValidB), ("a.yaml", sampleRawValidA)]

/-- A definition list containing one invalid file. -/
def sampleEntriesInvalid : List (String × RawSchemaData) :=
  [("a.yaml", sampleRawValidA), ("z.yaml", sampleRawInvalid)]

instance : IsTotal (String × RawSchemaData) (fun a b => a.1 ≤ b.1) :=
  ⟨fun a b => le_total a.1 b.1⟩

instance : IsTrans (String × RawSchemaData) (fun a b => a.1 ≤ b.1) :=
  ⟨fun _ _ _ h1 h2 => le_trans h1 h2⟩

/-! ## Matcher lemmas -/

theorem selectBest_from_some (rows : List (List String)) :
    ∀ (cands : List Schema) (s : Schema) (i : Nat),
      selectBest rows cands (some s, some i, (reqCount s : Int)) =
        (some ((foundCandidates rows cands).foldl pickBest (s, i)).1,
         some ((foundCandidates rows cands).foldl pickBest (s, i)).2,
         (reqCount ((foundCandidates rows cands).foldl pickBest (s, i)).1 :
           Int)) := by
  intro cands
  induction cands with
  | nil => intro s i; simp [selectBest, foundCandidates]
  | cons c rest ih =>
      intro s i
      rcases h : find_header_row_for_schema c rows with ⟨b, oi, cols⟩
      cases b with
      | false =>
          have hfc : foundCandidates rows (c :: rest) =
              foundCandidates rows rest := by
            simp [foundCandidates, foundHeaderIdx, h]
          cases oi <;> (simp only [selectBest, h]; rw [hfc]; exact ih s i)
      | true =>
          cases oi with
          | none =>
              have hfc : foundCandidates rows (c :: rest) =
                  foundCandidates rows rest := by
                simp [foundCandidates, foundHeaderIdx, h]
              simp only [selectBest, h]
              rw [hfc]
              exact ih s i
          | some idx =>
              have hfc : foundCandidates rows (c :: rest) =
                  (c, idx) :: foundCandidates rows rest := by
                simp [foundCandidates, foundHeaderIdx, h]
              simp only [selectBest, h]
              rw [hfc, List.foldl_cons]
              cases hb : betterB (c, idx) (s, i) with
              | true =>
                  have hpick : pickBest (s, i) (c, idx) = (c, idx) := by
                    simp [pickBest, hb]
                  have hcond :
                      (decide
                          ((c.required_columns.length : Int) >
                            (reqCount s : Int)) ||
                        (decide
                            ((c.required_columns.length : Int) =
                              (reqCount s : Int)) &&
                          decide (idx < i))) = true := by
                    have := hb
                    simp only [betterB, reqCount, gt_iff_lt, Nat.cast_lt,
                      Nat.cast_inj] at this ⊢
                    exact this
                  simp only [hcond, if_true, hpick]
                  exact ih c idx
              | false =>
                  have hpick : pickBest (s, i) (c, idx) = (s, i) := by
                    simp [pickBest, hb]
                  have hcond :
                      (decide
                          ((c.required_columns.length : Int) >
                            (reqCount s : Int)) ||
                        (decide
                            ((c.required_columns.length : Int) =
                              (reqCount s : Int)) &&
                          decide (idx < i))) = false := by
                    have := hb
                    simp only [betterB, reqCount, gt_iff_lt, Nat.cast_lt,
                      Nat.cast_inj] at this ⊢
                    exact this
                  simp only [hcond, if_false, hpick]
                  exact ih s i

theorem selectBest_from_none (rows : List (List String)) :
    ∀ (cands : List Schema),
      selectBest rows cands (none, none, -1) =
        match foundCandidates rows cands with
        | [] => (none, none, -1)
        | x :: xs =>
            (some (xs.foldl pickBest x).1, some (xs.foldl pickBest x).2,
             (reqCount (xs.foldl pickBest x).1 : Int)) := by
  intro cands
  induction cands with
  | nil => simp [selectBest, foundCandidates]
  | cons c rest ih =>
      rcases h : find_header_row_for_schema c rows with ⟨b, oi, cols⟩
      cases b with
      | false =>
          have hfc : foundCandidates rows (c :: rest) =
              foundCandidates rows rest := by
            simp [foundCandidates, foundHeaderIdx, h]
          cases oi <;> (simp only [selectBest, h]; rw [hfc]; exact ih)
      | true =>
          cases oi with
          | none =>
              have hfc : foundCandidates rows (c :: rest) =
                  foundCandidates rows rest := by
                simp [foundCandidates, foundHeaderIdx, h]
              simp only [selectBest, h]
              rw [hfc]
              exact ih
          | some idx =>
              have hfc : foundCandidates rows (c :: rest) =
                  (c, idx) :: foundCandidates rows rest := by
                simp [foundCandidates, foundHeaderIdx, h]
              simp only [selectBest, h]
              rw [hfc]
              have hcond :
                  (decide ((c.required_columns.length : Int) > (-1 : Int)) ||
                    (decide ((c.required_columns.length : Int) = (-1 : Int)) &&
                      true)) = true := by
                simp
                omega
              simp only [hcond, if_true]
              exact selectBest_from_some rows rest c idx

/-- Specification-level form of `match_file_to_schema`: candidate
filtering, then the best-candidate fold over the schemas that found a
header. -/
theorem match_file_to_schema_eq (fp : FileProfile) (schemas : List Schema) :
    match_file_to_schema fp schemas =
      (if candidateSchemas (pathName fp.path) schemas = [] then
        unclassifiedNoPattern
      else
        match
          foundCandidates fp.rows
            (candidateSchemas (pathName fp.path) schemas) with
        | [] => unclassifiedNoHeader
        | x :: xs => matchedResult (xs.foldl pickBest x)) := by
  unfold match_file_to_schema
  by_cases hc : candidateSchemas (pathName fp.path) schemas = []
  · have hc' := hc
    simp only [candidateSchemas] at hc'
    simp [hc, hc']
  · have hc' := hc
    simp only [candidateSchemas] at hc'
    simp only [hc, hc', if_false]
    rw [show (schemas.filter
        (fun s => matchesAnyPattern (pathName fp.path) s.file_patterns)) =
        candidateSchemas (pathName fp.path) schemas from rfl]
    rw [selectBest_from_none]
    rcases hf : foundCandidates fp.rows
        (candidateSchemas (pathName fp.path) schemas) with _ | ⟨x, xs⟩
    · simp
    · simp [matchedResult]

theorem pickBest_cases (acc x : Schema × Nat) :
    pickBest acc x = acc ∨ pickBest acc x = x := by
  unfold pickBest
  by_cases h : betterB x acc = true <;> simp [h]

theorem reqCount_le_pickBest_left (acc x : Schema × Nat) :
    reqCount acc.1 ≤ reqCount (pickBest acc x).1 := by
  by_cases h : betterB x acc = true
  · have hle : reqCount acc.1 ≤ reqCount x.1 := by
      simp only [betterB, Bool.or_eq_true, Bool.and_eq_true,
        decide_eq_true_eq] at h
      rcases h with h | ⟨h, _⟩
      · exact le_of_lt h
      · exact le_of_eq h.symm
    simp [pickBest, h, hle]
  · simp [pickBest, h]

theorem reqCount_le_pickBest_right (acc x : Schema × Nat) :
    reqCount x.1 ≤ reqCount (pickBest acc x).1 := by
  by_cases h : betterB x acc = true
  · simp [pickBest, h]
  · have hle : reqCount x.1 ≤ reqCount acc.1 := by
      simp only [betterB, Bool.or_eq_true, Bool.and_eq_true,
        decide_eq_true_eq] at h
      push_neg at h
      exact h.1
    simp [pickBest, h, hle]

theorem foldl_pickBest_mem (xs : List (Schema × Nat)) :
    ∀ x : Schema × Nat, xs.foldl pickBest x = x ∨ xs.foldl pickBest x ∈ xs := by
  induction xs with
  | nil => intro x; simp
  | cons y ys ih =>
      intro x
      rw [List.foldl_cons]
      rcases ih (pickBest x y) with h | h
      · rcases pickBest_cases x y with h2 | h2
        · left; rw [h, h2]
        · right; rw [h, h2]; exact List.mem_cons_self y ys
      · right; exact List.mem_cons_of_mem y h

theorem foldl_pickBest_max (xs : List (Schema × Nat)) :
    ∀ x : Schema × Nat, ∀ y : Schema × Nat, (y = x ∨ y ∈ xs) →
      reqCount y.1 ≤ reqCount ((xs.foldl pickBest x).1) := by
  induction xs with
  | nil =>
      intro x y hy
      rcases hy with rfl | h
      · simp
      · simp at h
  | cons z zs ih =>
      intro x y hy
      rw [List.foldl_cons]
      rcases hy with rfl | hz
      · exact le_trans (reqCount_le_pickBest_left y z)
          (ih (pickBest y z) _ (Or.inl rfl))
      · rcases List.mem_cons.mp hz with rfl | hmem
        · exact le_trans (reqCount_le_pickBest_right x y)
            (ih (pickBest x y) _ (Or.inl rfl))
        · exact ih (pickBest x z) y (Or.inr hmem)

/-- C2: among the candidate schemas that found a header row, the matcher
selects one whose required-column count is maximal, so a schema requiring
four columns always beats one requiring two, regardless of header row
position or catalog order. -/
theorem c2_specificity (fp : FileProfile) (schemas : List Schema)
    (s : Schema) (h : Nat)
    (hmem : (s, h) ∈
      foundCandidates fp.rows (candidateSchemas (pathName fp.path) schemas)) :
    (match_file_to_schema fp schemas).status = "matched" ∧
    ∃ w hw, (match_file_to_schema fp schemas).schema = some w ∧
      (w, hw) ∈
        foundCandidates fp.rows
          (candidateSchemas (pathName fp.path) schemas) ∧
      ∀ t ht, (t, ht) ∈
          foundCandidates fp.rows
            (candidateSchemas (pathName fp.path) schemas) →
        reqCount t ≤ reqCount w := by
  rcases hf : foundCandidates fp.rows
      (candidateSchemas (pathName fp.path) schemas) with _ | ⟨x, xs⟩
  · rw [hf] at hmem; simp at hmem
  · have hcands : candidateSchemas (pathName fp.path) schemas ≠ [] := by
      intro hnil
      rw [hnil] at hf
      simp [foundCandidates] at hf
    have heq := match_file_to_schema_eq fp schemas
    rw [if_neg hcands, hf] at heq
    refine ⟨by rw [heq]; rfl, (xs.foldl pickBest x).1,
      (xs.foldl pickBest x).2, by rw [heq]; rfl, ?_, ?_⟩
    · rcases foldl_pickBest_mem xs x with hm | hm
      · rw [hm]; exact List.mem_cons_self x xs
      · exact List.mem_cons_of_mem x hm
    · intro t ht hmem2
      have : (t, ht) = x ∨ (t, ht) ∈ xs := List.mem_cons.mp hmem2
      exact foldl_pickBest_max xs x (t, ht) this

theorem c2_specificity_witness :
    (sampleSchemaAB, 0) ∈
      foundCandidates sampleProfile.rows
        (candidateSchemas (pathName sampleProfile.path)
          [sampleSchemaAB, sampleSchemaABCD]) ∧
    ((match_file_to_schema sampleProfile
        [sampleSchemaAB, sampleSchemaABCD]).status = "matched" ∧
      ∃ w hw,
        (match_file_to_schema sampleProfile
            [sampleSchemaAB, sampleSchemaABCD]).schema = some w ∧
        (w, hw) ∈
          foundCandidates sampleProfile.rows
            (candidateSchemas (pathName sampleProfile.path)
              [sampleSchemaAB, sampleSchemaABCD]) ∧
        ∀ t ht, (t, ht) ∈
            foundCandidates sampleProfile.rows
              (candidateSchemas (pathName sampleProfile.path)
                [sampleSchemaAB, sampleSchemaABCD]) →
          reqCount t ≤ reqCount w) :=
  ⟨by decide,
    c2_specificity sampleProfile [sampleSchemaAB, sampleSchemaABCD]
      sampleSchemaAB 0 (by decide)⟩

/-- C3: when exactly two candidate schemas found a header row and their
required-column counts are equal, an equal header row index keeps the
schema earlier in catalog order, and otherwise the lower header row index
wins. -/
theorem c3_tiebreak (fp : FileProfile) (schemas : List Schema)
    (s1 s2 : Schema) (h1 h2 : Nat)
    (hf : foundCandidates fp.rows
        (candidateSchemas (pathName fp.path) schemas) = [(s1, h1), (s2, h2)])
    (hcount : reqCount s1 = reqCount s2) :
    (h1 = h2 → (match_file_to_schema fp schemas).schema = some s1) ∧
    (h2 < h1 → (match_file_to_schema fp schemas).schema = some s2) ∧
    (h1 < h2 → (match_file_to_schema fp schemas).schema = some s1) := by
  have hcands : candidateSchemas (pathName fp.path) schemas ≠ [] := by
    intro hnil
    rw [hnil] at hf
    simp [foundCandidates] at hf
  have heq := match_file_to_schema_eq fp schemas
  rw [if_neg hcands, hf] at heq
  have hres : (match_file_to_schema fp schemas).schema =
      some (pickBest (s1, h1) (s2, h2)).1 := by
    rw [heq]; rfl
  have hb : betterB (s2, h2) (s1, h1) = decide (h2 < h1) := by
    simp [betterB, hcount, lt_irrefl]
  refine ⟨?_, ?_, ?_⟩
  · intro hidx
    rw [hres]
    have : betterB (s2, h2) (s1, h1) = false := by
      rw [hb]; simp [hidx]
    simp [pickBest, this]
  · intro hlt
    rw [hres]
    have : betterB (s2, h2) (s1, h1) = true := by
      rw [hb]; simp [hlt]
    simp [pickBest, this]
  · intro hlt
    rw [hres]
    have : betterB (s2, h2) (s1, h1) = false := by
      rw [hb]; simp; omega
    simp [pickBest, this]

theorem c3_tiebreak_witness :
    (foundCandidates sampleProfile.rows
        (candidateSchemas (pathName sampleProfile.path)
          [sampleSchemaAB, sampleSchemaCD]) =
      [(sampleSchemaAB, 0), (sampleSchemaCD, 0)] ∧
     reqCount sampleSchemaAB = reqCount sampleSchemaCD) ∧
    ((0 = 0 →
        (match_file_to_schema sampleProfile
            [sampleSchemaAB, sampleSchemaCD]).schema = some sampleSchemaAB) ∧
     (0 < 0 →
        (match_file_to_schema sampleProfile
            [sampleSchemaAB, sampleSchemaCD]).schema = some sampleSchemaCD) ∧
     (0 < 0 →
        (match_file_to_schema sampleProfile
            [sampleSchemaAB, sampleSchemaCD]).schema = some sampleSchemaAB)) :=
  ⟨⟨by decide, by decide⟩,
    c3_tiebreak sampleProfile [sampleSchemaAB, sampleSchemaCD]
      sampleSchemaAB sampleSchemaCD 0 0 (by decide) (by decide)⟩

/-- C5: a file matching no schema pattern is unclassified with reason
`no_file_pattern_match` and the outcome does not depend on the probed
rows; a file with candidates none of which found a header is unclassified
with reason `no_header_match_for_any_candidate`. -/
theorem c5_coarse_filter (fp : FileProfile) (schemas : List Schema) :
    ((∀ s ∈ schemas,
        matchesAnyPattern (pathName fp.path) s.file_patterns = false) →
      match_file_to_schema fp schemas = unclassifiedNoPattern ∧
      ∀ rows', match_file_to_schema { fp with rows := rows' } schemas =
        unclassifiedNoPattern) ∧
    (candidateSchemas (pathName fp.path) schemas ≠ [] →
      (∀ s ∈ candidateSchemas (pathName fp.path) schemas,
        foundHeaderIdx fp.rows s = none) →
      match_file_to_schema fp schemas = unclassifiedNoHeader) := by
  constructor
  · intro hnone
    have hc : ∀ rows' : List (List String),
        candidateSchemas
          (pathName (FileProfile.mk fp.path fp.extension rows').path)
          schemas = [] := by
      intro rows'
      simp only [candidateSchemas]
      rw [List.filter_eq_nil_iff]
      intro s hs
      simp [hnone s hs]
    constructor
    · have heq := match_file_to_schema_eq fp schemas
      rw [if_pos (by simpa using hc fp.rows)] at heq
      exact heq
    · intro rows'
      have heq := match_file_to_schema_eq
        (FileProfile.mk fp.path fp.extension rows') schemas
      rw [if_pos (hc rows')] at heq
      exact heq
  · intro hne hnoheader
    have hf : foundCandidates fp.rows
        (candidateSchemas (pathName fp.path) schemas) = [] := by
      simp only [foundCandidates]
      rw [List.filterMap_eq_nil_iff]
      intro s hs
      simp [hnoheader s hs]
    have heq := match_file_to_schema_eq fp schemas
    rw [if_neg hne, hf] at heq
    exact heq

theorem c5_coarse_filter_witness :
    ((∀ s ∈ [sampleSchemaAB],
        matchesAnyPattern (pathName sampleProfileRandom.path)
          s.file_patterns = false) ∧
      match_file_to_schema sampleProfileRandom [sampleSchemaAB] =
        unclassifiedNoPattern ∧
      ∀ rows',
        match_file_to_schema { sampleProfileRandom with rows := rows' }
          [sampleSchemaAB] = unclassifiedNoPattern) ∧
    ((candidateSchemas (pathName sampleProfileNoHeader.path)
        [sampleSchemaAB] ≠ [] ∧
      ∀ s ∈ candidateSchemas (pathName sampleProfileNoHeader.path)
          [sampleSchemaAB],
        foundHeaderIdx sampleProfileNoHeader.rows s = none) ∧
      match_file_to_schema sampleProfileNoHeader [sampleSchemaAB] =
        unclassifiedNoHeader) :=
  ⟨⟨by decide,
    (c5_coarse_filter sampleProfileRandom [sampleSchemaAB]).1 (by decide)⟩,
   ⟨⟨by decide, by decide⟩,
    (c5_coarse_filter sampleProfileNoHeader [sampleSchemaAB]).2
      (by decide) (by decide)⟩⟩

/-! ## Header-row discovery lemmas -/

theorem headerQualifiesSpec_eq (schema : Schema) (row : List String) :
    headerQualifiesSpec schema row = requiredSubsetB schema row := rfl

theorem rowValues_ne_nil_of_qualifies (schema : Schema) (row : List String)
    (hreq : schema.required_columns ≠ [])
    (hq : headerQualifiesSpec schema row = true) :
    rowValues row ≠ [] := by
  rcases hx : schema.required_columns with _ | ⟨c, cs⟩
  · exact absurd hx hreq
  · intro hnil
    simp only [headerQualifiesSpec, List.all_eq_true] at hq
    have := hq c (by rw [hx]; exact List.mem_cons_self c cs)
    rw [hnil] at this
    simp at this

theorem findHeaderAux_char (schema : Schema)
    (hreq : schema.required_columns ≠ []) :
    ∀ (rows : List (List String)) (k : Nat),
      findHeaderAux schema rows k =
        match leastHeaderIdx schema rows with
        | some i => (true, some (k + i), schema.required_columns.dedup)
        | none => (false, none, []) := by
  intro rows
  induction rows with
  | nil => intro k; simp [findHeaderAux, leastHeaderIdx]
  | cons row rest ih =>
      intro k
      by_cases hq : headerQualifiesSpec schema row = true
      · have hne := rowValues_ne_nil_of_qualifies schema row hreq hq
        rw [headerQualifiesSpec_eq] at hq
        simp only [findHeaderAux, if_neg hne, hq, if_true]
        simp only [leastHeaderIdx, headerQualifiesSpec_eq, hq, if_true]
        simp
      · have hq' : requiredSubsetB schema row = false := by
          rw [← headerQualifiesSpec_eq]
          exact Bool.not_eq_true _ ▸ Bool.of_not_eq_true hq
        have hstep : findHeaderAux schema (row :: rest) k =
            findHeaderAux schema rest (k + 1) := by
          by_cases hnil : rowValues row = []
          · simp [findHeaderAux, hnil]
          · simp [findHeaderAux, hnil, hq']
        rw [hstep, ih (k + 1)]
        have hleast : leastHeaderIdx schema (row :: rest) =
            (leastHeaderIdx schema rest).map (fun i => i + 1) := by
          simp [leastHeaderIdx, hq]
        rw [hleast]
        rcases leastHeaderIdx schema rest with _ | i
        · simp
        · have h3 : k + 1 + i = k + (i + 1) := by omega
          simp [Option.map, h3]

theorem leastHeaderIdx_some_iff (schema : Schema) :
    ∀ (rows : List (List String)) (i : Nat),
      leastHeaderIdx schema rows = some i ↔
        (i < rows.length ∧
          headerQualifiesSpec schema (rows.getD i []) = true ∧
          ∀ j, j < i → headerQualifiesSpec schema (rows.getD j []) = false) := by
  intro rows
  induction rows with
  | nil => intro i; simp [leastHeaderIdx]
  | cons row rest ih =>
      intro i
      by_cases hq : headerQualifiesSpec schema row = true
      · simp only [leastHeaderIdx, hq, if_true]
        constructor
        · intro h
          have : i = 0 := by
            injection h with h'
            omega
          subst this
          refine ⟨by simp, by simpa using hq, by omega⟩
        · intro ⟨_, _, hmin⟩
          rcases i with _ | i'
          · rfl
          · have := hmin 0 (by omega)
            simp at this
            rw [this] at hq
            simp at hq
      · have hleast : leastHeaderIdx schema (row :: rest) =
            (leastHeaderIdx schema rest).map (fun i => i + 1) := by
          simp [leastHeaderIdx, hq]
        rw [hleast]
        rcases i with _ | i'
        · constructor
          · intro h
            rcases hmap : leastHeaderIdx schema rest with _ | v
            · rw [hmap] at h; simp at h
            · rw [hmap] at h; simp at h
          · intro ⟨_, hget, _⟩
            simp at hget
            rw [hget] at hq
            simp at hq
        · constructor
          · intro h
            rcases hmap : leastHeaderIdx schema rest with _ | v
            · rw [hmap] at h; simp at h
            · rw [hmap] at h
              simp at h
              subst h
              have := (ih v).mp hmap
              refine ⟨by simp; omega, by simpa using this.2.1, ?_⟩
              intro j hj
              rcases j with _ | j'
              · simpa using Bool.of_not_eq_true hq
              · have := this.2.2 j' (by omega)
                simpa using this
          · intro ⟨hlen, hget, hmin⟩
            have hrest : leastHeaderIdx schema rest = some i' := by
              apply (ih i').mpr
              refine ⟨by simp at hlen; omega, by simpa using hget, ?_⟩
              intro j hj
              have := hmin (j + 1) (by omega)
              simpa using this
            rw [hrest]
            rfl

theorem leastHeaderIdx_none_iff (schema : Schema) :
    ∀ rows : List (List String),
      leastHeaderIdx schema rows = none ↔
        ∀ row ∈ rows, headerQualifiesSpec schema row = false := by
  intro rows
  induction rows with
  | nil => simp [leastHeaderIdx]
  | cons row rest ih =>
      by_cases hq : headerQualifiesSpec schema row = true
      · simp [leastHeaderIdx, hq]
      · have hq' := Bool.of_not_eq_true hq
        simp [leastHeaderIdx, hq', ih]

/-- C4 counterexample: for a schema whose required-column set is empty,
the first probed row consisting of one empty cell qualifies under the
specification's superset test (the empty set is a superset of the empty
set), yet the scan reports no header row at all, because rows with no
non-empty cells are skipped before the subset test. -/
theorem c4_counterexample :
    headerQualifiesSpec sampleSchemaEmptyReq [""] = true ∧
    (find_header_row_for_schema sampleSchemaEmptyReq [[""]]).1 = false ∧
    (find_header_row_for_schema sampleSchemaEmptyReq [[""]]).2.1 = none := by
  decide

/-- C4 (amended: schemas with at least one required column, which is
every schema the loader admits): a row qualifies as a header iff its
non-empty cells form a superset of the required columns; the reported
index is the least qualifying index, and the schema reports no header iff
no probed row qualifies. -/
theorem c4_header_discovery (schema : Schema) (rows : List (List String))
    (hreq : schema.required_columns ≠ []) :
    (∀ i, (find_header_row_for_schema schema rows).2.1 = some i ↔
        (i < rows.length ∧
          headerQualifiesSpec schema (rows.getD i []) = true ∧
          ∀ j, j < i →
            headerQualifiesSpec schema (rows.getD j []) = false)) ∧
    ((find_header_row_for_schema schema rows).1 = false ↔
        ∀ row ∈ rows, headerQualifiesSpec schema row = false) := by
  have hchar := findHeaderAux_char schema hreq rows 0
  constructor
  · intro i
    rw [find_header_row_for_schema, hchar]
    rcases hl : leastHeaderIdx schema rows with _ | v
    · simp only
      constructor
      · intro h; simp at h
      · intro h
        have := (leastHeaderIdx_some_iff schema rows i).mpr h
        rw [hl] at this
        simp at this
    · simp only [Nat.zero_add]
      constructor
      · intro h
        simp at h
        subst h
        exact (leastHeaderIdx_some_iff schema rows v).mp hl
      · intro h
        have := (leastHeaderIdx_some_iff schema rows i).mpr h
        rw [hl] at this
        simp at this
        simp [this]
  · rw [find_header_row_for_schema, hchar]
    rcases hl : leastHeaderIdx schema rows with _ | v
    · simp only
      constructor
      · intro _
        exact (leastHeaderIdx_none_iff schema rows).mp hl
      · intro _; trivial
    · simp only
      constructor
      · intro h; simp at h
      · intro h
        have := (leastHeaderIdx_none_iff schema rows).mpr h
        rw [hl] at this
        simp at this

/-! ## Path and prefix lemmas -/

theorem pathJoin_wf (p : Path) {s : String} (h : wfSegment s) :
    pathJoin p s = (p : List String) ++ [s] := by
  simp [pathJoin, h.1, h.2]

theorem pathName_concat (l : List String) (x : String) :
    pathName ((l : List String) ++ [x]) = x := by
  simp [pathName]

theorem hasPrefixSeg_append (r a b : List String) :
    hasPrefixSeg (r ++ a) (r ++ b) = hasPrefixSeg a b := by
  induction r with
  | nil => rfl
  | cons x xs ih => simp [hasPrefixSeg, ih]

theorem hasPrefixSeg_self_append (p t : List String) :
    hasPrefixSeg p (p ++ t) = true := by
  induction p with
  | nil => rfl
  | cons x xs ih => simp [hasPrefixSeg, ih]

theorem hasPrefixSeg_cons_ne (a b : String) (as bs : List String)
    (h : a ≠ b) : hasPrefixSeg (a :: as) (b :: bs) = false := by
  simp [hasPrefixSeg, h]

theorem append_left_cancel_list {a b c : List String}
    (h : a ++ b = a ++ c) : b = c := by
  induction a with
  | nil => exact h
  | cons x xs ih =>
      apply ih
      injection h

theorem pathJoin_rel (p : Path) (s : String)
    (h : isAbsoluteSeg s = false) :
    pathJoin p s = (p : List String) ++ segmentsOf s := by
  simp [pathJoin, h]

theorem isAbsoluteSeg_loadDate (x : String) :
    isAbsoluteSeg ("load_date=" ++ x) = false := by
  have h1 : ("load_date=" ++ x).data = 'l' :: ("oad_date=".data ++ x.data) := by
    rw [String.data_append]
    have h2 : "load_date=".data = 'l' :: "oad_date=".data := by decide
    rw [h2, List.cons_append]
  simp [isAbsoluteSeg, h1]

theorem wf_raw : wfSegment "raw" := by decide

theorem wf_drop_zone : wfSegment "drop_zone" := by decide

theorem wf_unclassified : wfSegment "unclassified" := by decide

theorem wf_rejected : wfSegment "rejected" := by decide

theorem wf_incoming : wfSegment "incoming" := by decide

theorem build_rejected_eq (root : Path) (name : String) (h : wfSegment name) :
    build_rejected_path root name =
      (root : List String) ++ ["drop_zone", "rejected", name] := by
  unfold build_rejected_path
  rw [pathJoin_wf root wf_drop_zone, pathJoin_wf _ wf_rejected,
    pathJoin_wf _ h]
  simp

theorem build_unclassified_eq (root : Path) (name : String)
    (h : wfSegment name) :
    build_unclassified_path root name =
      (root : List String) ++ ["drop_zone", "unclassified", name] := by
  unfold build_unclassified_path
  rw [pathJoin_wf root wf_drop_zone, pathJoin_wf _ wf_unclassified,
    pathJoin_wf _ h]
  simp

theorem incomingPath_eq (root : Path) (name : String) (h : wfSegment name) :
    incomingPath root name =
      (root : List String) ++ ["drop_zone", "incoming", name] := by
  unfold incomingPath
  rw [pathJoin_wf root wf_drop_zone, pathJoin_wf _ wf_incoming,
    pathJoin_wf _ h]
  simp

theorem build_raw_eq (root : Path) (schema : Schema) (d : Date)
    (name : String) (hs : wfSegment schema.source_system)
    (hd : wfSegment schema.dataset_name) (hn : wfSegment name) :
    build_raw_target_path root schema d name =
      ((root : List String) ++
          ["raw", schema.source_system, schema.dataset_name]) ++
        segmentsOf ("load_date=" ++ dateToIso d) ++ [name] := by
  unfold build_raw_target_path
  rw [pathJoin_wf root wf_raw, pathJoin_wf _ hs, pathJoin_wf _ hd,
    pathJoin_rel _ _ (isAbsoluteSeg_loadDate (dateToIso d)),
    pathJoin_wf _ hn]
  simp

/-! ## Matcher outcome case analysis -/

theorem foundCandidates_schema_mem (rows : List (List String))
    (cands : List Schema) (s : Schema) (i : Nat)
    (h : (s, i) ∈ foundCandidates rows cands) : s ∈ cands := by
  simp only [foundCandidates, List.mem_filterMap] at h
  obtain ⟨t, ht, hmap⟩ := h
  rcases hidx : foundHeaderIdx rows t with _ | v
  · rw [hidx] at hmap; simp at hmap
  · rw [hidx] at hmap
    simp at hmap
    rcases hmap with ⟨rfl, _⟩
    exact ht

theorem match_result_cases (fp : FileProfile) (schemas : List Schema) :
    match_file_to_schema fp schemas = unclassifiedNoPattern ∨
    match_file_to_schema fp schemas = unclassifiedNoHeader ∨
    ∃ w : Schema × Nat, w.1 ∈ schemas ∧
      match_file_to_schema fp schemas = matchedResult w := by
  have heq := match_file_to_schema_eq fp schemas
  by_cases hc : candidateSchemas (pathName fp.path) schemas = []
  · left; rw [heq, if_pos hc]
  · rw [if_neg hc] at heq
    rcases hf : foundCandidates fp.rows
        (candidateSchemas (pathName fp.path) schemas) with _ | ⟨x, xs⟩
    · right; left
      rw [hf] at heq
      exact heq
    · right; right
      refine ⟨xs.foldl pickBest x, ?_, ?_⟩
      · have hmem : xs.foldl pickBest x ∈ x :: xs := by
          rcases foldl_pickBest_mem xs x with hm | hm
          · rw [hm]; exact List.mem_cons_self x xs
          · exact List.mem_cons_of_mem x hm
        rw [← hf] at hmem
        have := foundCandidates_schema_mem fp.rows _
          (xs.foldl pickBest x).1 (xs.foldl pickBest x).2 (by simpa using hmem)
        exact (List.mem_filter.mp this).1
      · rw [hf] at heq
        exact heq

/-! ## Relocation target lemmas -/

theorem move_record_unclassified (fp : FileProfile) (root : Path) (d : Date)
    (st : FsState) (r : MatchResult)
    (h : r = unclassifiedNoPattern ∨ r = unclassifiedNoHeader) :
    (move_file_according_to_result fp r root d st).2.target_path =
      some (build_unclassified_path root (pathName fp.path)) := by
  rcases h with rfl | rfl <;> rfl

theorem move_record_matched (fp : FileProfile) (root : Path) (d : Date)
    (st : FsState) (w : Schema × Nat) :
    (move_file_according_to_result fp (matchedResult w) root d
        st).2.target_path =
      some (build_raw_target_path root w.1 d (pathName fp.path)) := by
  rfl

/-! ## Per-file processing lemmas -/

theorem processOne_record (root : Path) (d : Date) (schemas : List Schema)
    (st : FsState) (job : IncomingJob) :
    (processOne root d schemas st job).2 = recordOf root d schemas job := by
  rcases hp : job.probe with e | pr
  · simp [processOne, recordOf, hp, reject_on_error]
  · rcases hm : job.moveError with _ | e
    · simp [processOne, recordOf, hp, hm, move_file_according_to_result]
    · simp [processOne, recordOf, hp, hm, reject_on_error]

theorem processOne_state (root : Path) (d : Date) (schemas : List Schema)
    (st : FsState) (job : IncomingJob) :
    (processOne root d schemas st job).1 =
      moveFile st (incomingPath root job.name)
        (destOf root d schemas job) := by
  rcases hp : job.probe with e | pr
  · simp [processOne, recordOf, destOf, hp, reject_on_error]
  · rcases hm : job.moveError with _ | e
    · simp [processOne, recordOf, destOf, hp, hm,
        move_file_according_to_result]
    · simp [processOne, recordOf, destOf, hp, hm, reject_on_error]

theorem runBatch_records (root : Path) (d : Date) (schemas : List Schema) :
    ∀ (jobs : List IncomingJob) (st : FsState),
      (runBatch root d schemas jobs st).2 =
        jobs.map (recordOf root d schemas) := by
  intro jobs
  induction jobs with
  | nil => intro st; rfl
  | cons j rest ih =>
      intro st
      simp only [runBatch, List.map_cons]
      rw [processOne_record, ih]

theorem runBatch_state_general (root : Path) (d : Date)
    (schemas : List Schema) :
    ∀ (jobs : List IncomingJob) (extra : FsState),
      (∀ j ∈ jobs, incomingPath root j.name ∉ extra) →
      (∀ j ∈ jobs, ∀ j' ∈ jobs,
        destOf root d schemas j ≠ incomingPath root j'.name) →
      (runBatch root d schemas jobs
        (jobs.map (fun j => incomingPath root j.name) ++ extra)).1 =
        extra ++ jobs.map (destOf root d schemas) := by
  intro jobs
  induction jobs with
  | nil => intro extra _ _; simp [runBatch]
  | cons j rest ih =>
      intro extra hnotin hne
      simp only [runBatch, List.map_cons]
      rw [processOne_state]
      have hmove :
          moveFile (incomingPath root j.name ::
              (rest.map (fun j => incomingPath root j.name) ++ extra))
            (incomingPath root j.name) (destOf root d schemas j) =
            rest.map (fun j => incomingPath root j.name) ++
              (extra ++ [destOf root d schemas j]) := by
        simp [moveFile, List.erase_cons_head]
      simp only [List.cons_append] at hmove ⊢
      rw [hmove]
      rw [ih (extra ++ [destOf root d schemas j]) ?notin ?ne]
      · simp
      case notin =>
        intro j' hj'
        rw [List.mem_append]
        push_neg
        refine ⟨hnotin j' (List.mem_cons_of_mem j hj'), ?_⟩
        simp only [List.mem_singleton]
        intro hcontra
        exact hne j (List.mem_cons_self j rest) j'
          (List.mem_cons_of_mem j hj') hcontra.symm
      case ne =>
        intro a ha b hb
        exact hne a (List.mem_cons_of_mem j ha) b (List.mem_cons_of_mem j hb)

/-! ## Destination shape and area lemmas -/

theorem destOf_shape (root : Path) (d : Date) (schemas : List Schema)
    (job : IncomingJob) (hn : wfSegment job.name)
    (hs : ∀ s ∈ schemas,
      wfSegment s.source_system ∧ wfSegment s.dataset_name) :
    (∃ s ∈ schemas, destOf root d schemas job =
        ((root : List String) ++ ["raw", s.source_system, s.dataset_name]) ++
          segmentsOf ("load_date=" ++ dateToIso d) ++ [job.name]) ∨
    destOf root d schemas job =
      (root : List String) ++ ["drop_zone", "unclassified", job.name] ∨
    destOf root d schemas job =
      (root : List String) ++ ["drop_zone", "rejected", job.name] := by
  have hpn : pathName (incomingPath root job.name) = job.name := by
    rw [incomingPath_eq root job.name hn]
    rw [show (root : List String) ++ ["drop_zone", "incoming", job.name] =
      ((root : List String) ++ ["drop_zone", "incoming"]) ++ [job.name] by
        simp]
    exact pathName_concat _ _
  rcases hp : job.probe with e | pr
  · right; right
    simp only [destOf, recordOf, processOne, hp, reject_on_error]
    rw [hpn, build_rejected_eq root job.name hn]
    rfl
  · rcases hm : job.moveError with _ | e
    · have hrec : recordOf root d schemas job =
          (move_file_according_to_result
            { path := incomingPath root job.name,
              extension := pr.1, rows := pr.2 }
            (match_file_to_schema
              { path := incomingPath root job.name,
                extension := pr.1, rows := pr.2 } schemas)
            root d []).2 := by
        simp [recordOf, processOne, hp, hm]
      rcases match_result_cases
          { path := incomingPath root job.name,
            extension := pr.1, rows := pr.2 } schemas with
        hcase | hcase | ⟨w, hwmem, hcase⟩
      · right; left
        simp only [destOf, hrec, hcase]
        rw [move_record_unclassified _ _ _ _ _ (Or.inl rfl)]
        simp only [Option.getD_some]
        show build_unclassified_path root
          (pathName (incomingPath root job.name)) = _
        rw [hpn]
        exact build_unclassified_eq root job.name hn
      · right; left
        simp only [destOf, hrec, hcase]
        rw [move_record_unclassified _ _ _ _ _ (Or.inr rfl)]
        simp only [Option.getD_some]
        show build_unclassified_path root
          (pathName (incomingPath root job.name)) = _
        rw [hpn]
        exact build_unclassified_eq root job.name hn
      · left
        refine ⟨w.1, hwmem, ?_⟩
        simp only [destOf, hrec, hcase]
        rw [move_record_matched]
        simp only [Option.getD_some]
        show build_raw_target_path root w.1 d
          (pathName (incomingPath root job.name)) = _
        rw [hpn]
        exact build_raw_eq root w.1 d job.name (hs w.1 hwmem).1
          (hs w.1 hwmem).2 hn
    · right; right
      simp only [destOf, recordOf, processOne, hp, hm, reject_on_error]
      rw [hpn, build_rejected_eq root job.name hn]
      rfl

theorem area_count_raw (root : Path) (tail : List String) :
    inExactlyOneArea root ((root : List String) ++ "raw" :: tail) := by
  simp only [inExactlyOneArea, areaFlags]
  rw [show (root : List String) ++ ["raw"] = root ++ ["raw"] from rfl]
  rw [show ((root : List String) ++ "raw" :: tail) =
      root ++ ("raw" :: tail) from rfl]
  rw [hasPrefixSeg_append root ["raw"] ("raw" :: tail),
    hasPrefixSeg_append root ["drop_zone", "unclassified"] ("raw" :: tail),
    hasPrefixSeg_append root ["drop_zone", "rejected"] ("raw" :: tail)]
  simp [hasPrefixSeg]

theorem area_count_unclassified (root : Path) (tail : List String) :
    inExactlyOneArea root
      ((root : List String) ++ "drop_zone" :: "unclassified" :: tail) := by
  simp only [inExactlyOneArea, areaFlags]
  rw [hasPrefixSeg_append root ["raw"]
      ("drop_zone" :: "unclassified" :: tail),
    hasPrefixSeg_append root ["drop_zone", "unclassified"]
      ("drop_zone" :: "unclassified" :: tail),
    hasPrefixSeg_append root ["drop_zone", "rejected"]
      ("drop_zone" :: "unclassified" :: tail)]
  simp [hasPrefixSeg]

theorem area_count_rejected (root : Path) (tail : List String) :
    inExactlyOneArea root
      ((root : List String) ++ "drop_zone" :: "rejected" :: tail) := by
  simp only [inExactlyOneArea, areaFlags]
  rw [hasPrefixSeg_append root ["raw"] ("drop_zone" :: "rejected" :: tail),
    hasPrefixSeg_append root ["drop_zone", "unclassified"]
      ("drop_zone" :: "rejected" :: tail),
    hasPrefixSeg_append root ["drop_zone", "rejected"]
      ("drop_zone" :: "rejected" :: tail)]
  simp [hasPrefixSeg]

theorem destOf_area (root : Path) (d : Date) (schemas : List Schema)
    (job : IncomingJob) (hn : wfSegment job.name)
    (hs : ∀ s ∈ schemas,
      wfSegment s.source_system ∧ wfSegment s.dataset_name) :
    inExactlyOneArea root (destOf root d schemas job) := by
  rcases destOf_shape root d schemas job hn hs with
    ⟨s, _, hdest⟩ | hdest | hdest
  · rw [hdest]
    rw [show ((root : List String) ++
        ["raw", s.source_system, s.dataset_name]) ++
        segmentsOf ("load_date=" ++ dateToIso d) ++ [job.name] =
      (root : List String) ++ "raw" :: (s.source_system ::
        s.dataset_name ::
          (segmentsOf ("load_date=" ++ dateToIso d) ++ [job.name])) by
        simp]
    exact area_count_raw root _
  · rw [hdest]
    exact area_count_unclassified root [job.name]
  · rw [hdest]
    exact area_count_rejected root [job.name]

theorem destOf_getLast (root : Path) (d : Date) (schemas : List Schema)
    (job : IncomingJob) (hn : wfSegment job.name)
    (hs : ∀ s ∈ schemas,
      wfSegment s.source_system ∧ wfSegment s.dataset_name) :
    (destOf root d schemas job).getLast? = some job.name := by
  rcases destOf_shape root d schemas job hn hs with
    ⟨s, _, hdest⟩ | hdest | hdest
  · rw [hdest]
    rw [show ((root : List String) ++
        ["raw", s.source_system, s.dataset_name]) ++
        segmentsOf ("load_date=" ++ dateToIso d) ++ [job.name] =
      (((root : List String) ++
          ["raw", s.source_system, s.dataset_name]) ++
        segmentsOf ("load_date=" ++ dateToIso d)) ++ [job.name] by simp]
    exact List.getLast?_concat _
  · rw [hdest]
    rw [show (root : List String) ++
        ["drop_zone", "unclassified", job.name] =
      ((root : List String) ++ ["drop_zone", "unclassified"]) ++
        [job.name] by simp]
    exact List.getLast?_concat _
  · rw [hdest]
    rw [show (root : List String) ++ ["drop_zone", "rejected", job.name] =
      ((root : List String) ++ ["drop_zone", "rejected"]) ++
        [job.name] by simp]
    exact List.getLast?_concat _

theorem destOf_ne_incoming (root : Path) (d : Date) (schemas : List Schema)
    (job job' : IncomingJob) (hn : wfSegment job.name)
    (hn' : wfSegment job'.name)
    (hs : ∀ s ∈ schemas,
      wfSegment s.source_system ∧ wfSegment s.dataset_name) :
    destOf root d schemas job ≠ incomingPath root job'.name := by
  rw [incomingPath_eq root job'.name hn']
  rcases destOf_shape root d schemas job hn hs with
    ⟨s, _, hdest⟩ | hdest | hdest <;> rw [hdest]
  · rw [show ((root : List String) ++
        ["raw", s.source_system, s.dataset_name]) ++
        segmentsOf ("load_date=" ++ dateToIso d) ++ [job.name] =
      (root : List String) ++ "raw" :: (s.source_system ::
        s.dataset_name ::
          (segmentsOf ("load_date=" ++ dateToIso d) ++ [job.name])) by
        simp]
    intro hcontra
    have := append_left_cancel_list hcontra
    injection this with h1 _
    exact absurd h1 (by decide)
  · intro hcontra
    have := append_left_cancel_list hcontra
    injection this with _ h2
    injection h2 with h3 _
    exact absurd h3 (by decide)
  · intro hcontra
    have := append_left_cancel_list hcontra
    injection this with _ h2
    injection h2 with h3 _
    exact absurd h3 (by decide)

/-- C1: starting from exactly the files present in `drop_zone/incoming`,
one batch run leaves the filesystem holding exactly one destination file
per incoming file — none vanish, none are duplicated — and every
destination lies in exactly one of the raw, unclassified, and rejected
areas.  Filenames listed from a directory are well-formed segments, and
the schema identifiers are assumed separator-free. -/
theorem c1_conservation (root : Path) (d : Date) (schemas : List Schema)
    (jobs : List IncomingJob)
    (hnodup : (jobs.map IncomingJob.name).Nodup)
    (hnames : ∀ j ∈ jobs, wfSegment j.name)
    (hschemas : ∀ s ∈ schemas,
      wfSegment s.source_system ∧ wfSegment s.dataset_name) :
    (runBatch root d schemas jobs
        (jobs.map (fun j => incomingPath root j.name))).1 =
      jobs.map (destOf root d schemas) ∧
    (jobs.map (destOf root d schemas)).Nodup ∧
    ∀ j ∈ jobs, inExactlyOneArea root (destOf root d schemas j) := by
  refine ⟨?_, ?_, ?_⟩
  · have h := runBatch_state_general root d schemas jobs []
      (by simp)
      (fun a ha b hb => destOf_ne_incoming root d schemas a b
        (hnames a ha) (hnames b hb) hschemas)
    simpa using h
  · have hmap : (jobs.map (destOf root d schemas)).map List.getLast? =
        jobs.map (fun j => some j.name) := by
      rw [List.map_map]
      apply List.map_congr_left
      intro j hj
      exact destOf_getLast root d schemas j (hnames j hj) hschemas
    have h2 : (jobs.map (fun j => some j.name)).Nodup := by
      have h3 : jobs.map (fun j => some j.name) =
          (jobs.map IncomingJob.name).map some := by
        rw [List.map_map]; rfl
      rw [h3]
      exact hnodup.map (Option.some_injective _)
    have h4 : ((jobs.map (destOf root d schemas)).map List.getLast?).Nodup := by
      rw [hmap]; exact h2
    exact h4.of_map
  · intro j hj
    exact destOf_area root d schemas j (hnames j hj) hschemas

theorem c1_conservation_witness :
    (([sampleJobOk, sampleJobErr].map IncomingJob.name).Nodup ∧
      (∀ j ∈ [sampleJobOk, sampleJobErr], wfSegment j.name) ∧
      ∀ s ∈ [sampleSchemaAB],
        wfSegment s.source_system ∧ wfSegment s.dataset_name) ∧
    ((runBatch sampleRoot sampleDate [sampleSchemaAB]
        [sampleJobOk, sampleJobErr]
        ([sampleJobOk, sampleJobErr].map
          (fun j => incomingPath sampleRoot j.name))).1 =
      [sampleJobOk, sampleJobErr].map
        (destOf sampleRoot sampleDate [sampleSchemaAB]) ∧
    ([sampleJobOk, sampleJobErr].map
        (destOf sampleRoot sampleDate [sampleSchemaAB])).Nodup ∧
    ∀ j ∈ [sampleJobOk, sampleJobErr],
      inExactlyOneArea sampleRoot
        (destOf sampleRoot sampleDate [sampleSchemaAB] j)) :=
  ⟨⟨by decide, by decide, by decide⟩,
    c1_conservation sampleRoot sampleDate [sampleSchemaAB]
      [sampleJobOk, sampleJobErr] (by decide) (by decide) (by decide)⟩

/-- C7: a file whose probing raises an exception, or whose move raises
one, yields a rejected record carrying the exception text as reason, its
file is moved from its original incoming location to the rejected area,
and the records of the files before and after it in the batch are
produced unchanged — the batch never aborts. -/
theorem c7_reject_on_exception (root : Path) (d : Date)
    (schemas : List Schema) (pre post : List IncomingJob)
    (j : IncomingJob) (e : String) (st : FsState)
    (herr : j.probe = .error e ∨
      (∃ pr, j.probe = .ok pr ∧ j.moveError = some e)) :
    (runBatch root d schemas (pre ++ j :: post) st).2 =
      pre.map (recordOf root d schemas) ++
        recordOf root d schemas j ::
          post.map (recordOf root d schemas) ∧
    recordOf root d schemas j =
      { original_path := incomingPath root j.name,
        target_path := some (build_rejected_path root
          (pathName (incomingPath root j.name))),
        status := "rejected", schema_id := none, source_system := none,
        dataset_name := none, reason := some e,
        header_row_index := none } ∧
    ∀ st' : FsState, (processOne root d schemas st' j).1 =
      moveFile st' (incomingPath root j.name)
        (build_rejected_path root (pathName (incomingPath root j.name))) := by
  refine ⟨?_, ?_, ?_⟩
  · rw [runBatch_records]
    simp
  · rcases herr with hp | ⟨pr, hp, hm⟩
    · simp [recordOf, processOne, hp, reject_on_error]
    · simp [recordOf, processOne, hp, hm, reject_on_error]
  · intro st'
    rcases herr with hp | ⟨pr, hp, hm⟩
    · simp [processOne, hp, reject_on_error]
    · simp [processOne, hp, hm, reject_on_error]

theorem c7_reject_on_exception_witness :
    (sampleJobErr.probe = Except.error "boom" ∨
      (∃ pr, sampleJobErr.probe = Except.ok pr ∧
        sampleJobErr.moveError = some "boom")) ∧
    ((runBatch sampleRoot sampleDate [sampleSchemaAB]
        ([sampleJobOk] ++ sampleJobErr :: [sampleJobMoveErr]) []).2 =
      [sampleJobOk].map
          (recordOf sampleRoot sampleDate [sampleSchemaAB]) ++
        recordOf sampleRoot sampleDate [sampleSchemaAB] sampleJobErr ::
          [sampleJobMoveErr].map
            (recordOf sampleRoot sampleDate [sampleSchemaAB]) ∧
    recordOf sampleRoot sampleDate [sampleSchemaAB] sampleJobErr =
      { original_path := incomingPath sampleRoot sampleJobErr.name,
        target_path := some (build_rejected_path sampleRoot
          (pathName (incomingPath sampleRoot sampleJobErr.name))),
        status := "rejected", schema_id := none, source_system := none,
        dataset_name := none, reason := some "boom",
        header_row_index := none } ∧
    ∀ st' : FsState,
      (processOne sampleRoot sampleDate [sampleSchemaAB] st'
          sampleJobErr).1 =
        moveFile st' (incomingPath sampleRoot sampleJobErr.name)
          (build_rejected_path sampleRoot
            (pathName (incomingPath sampleRoot sampleJobErr.name)))) :=
  ⟨Or.inl rfl,
    c7_reject_on_exception sampleRoot sampleDate [sampleSchemaAB]
      [sampleJobOk] [sampleJobMoveErr] sampleJobErr "boom" []
      (Or.inl rfl)⟩

/-- C10: the matcher alone only ever returns a matched or an unclassified
outcome, never a rejected one; every rejected record of a batch run stems
from a job on which an exception occurred (failed probe or failed
move). -/
theorem c10_matcher_never_rejects :
    (∀ (fp : FileProfile) (schemas : List Schema),
      (match_file_to_schema fp schemas).status = "matched" ∨
      (match_file_to_schema fp schemas).status = "unclassified") ∧
    (∀ (root : Path) (d : Date) (schemas : List Schema)
        (jobs : List IncomingJob) (st : FsState)
        (r : ClassificationRecord),
      r ∈ (runBatch root d schemas jobs st).2 → r.status = "rejected" →
      ∃ job ∈ jobs, r = recordOf root d schemas job ∧
        ((∃ e, job.probe = Except.error e) ∨ job.moveError ≠ none)) := by
  have hstatus : ∀ (fp : FileProfile) (schemas : List Schema),
      (match_file_to_schema fp schemas).status = "matched" ∨
      (match_file_to_schema fp schemas).status = "unclassified" := by
    intro fp schemas
    rcases match_result_cases fp schemas with h | h | ⟨w, _, h⟩
    · right; rw [h]; rfl
    · right; rw [h]; rfl
    · left; rw [h]; rfl
  refine ⟨hstatus, ?_⟩
  intro root d schemas jobs st r hr hstat
  rw [runBatch_records] at hr
  obtain ⟨job, hjob, hjr⟩ := List.mem_map.mp hr
  refine ⟨job, hjob, hjr.symm, ?_⟩
  by_contra hcon
  push_neg at hcon
  obtain ⟨hprobe, hmove⟩ := hcon
  rcases hp : job.probe with e | pr
  · exact hprobe e hp
  · have hstatus2 : r.status =
        (match_file_to_schema
          { path := incomingPath root job.name,
            extension := pr.1, rows := pr.2 } schemas).status := by
      rw [← hjr]
      simp [recordOf, processOne, hp, hmove,
        move_file_according_to_result]
    rcases hstatus
        { path := incomingPath root job.name,
          extension := pr.1, rows := pr.2 } schemas with hs | hs
    · rw [hstat, hs] at hstatus2
      exact absurd hstatus2 (by decide)
    · rw [hstat, hs] at hstatus2
      exact absurd hstatus2 (by decide)

theorem c10_matcher_never_rejects_witness :
    (recordOf sampleRoot sampleDate [sampleSchemaAB] sampleJobErr ∈
        (runBatch sampleRoot sampleDate [sampleSchemaAB]
          [sampleJobErr] []).2 ∧
      (recordOf sampleRoot sampleDate [sampleSchemaAB]
        sampleJobErr).status = "rejected") ∧
    ∃ job ∈ [sampleJobErr],
      recordOf sampleRoot sampleDate [sampleSchemaAB] sampleJobErr =
        recordOf sampleRoot sampleDate [sampleSchemaAB] job ∧
      ((∃ e, job.probe = Except.error e) ∨ job.moveError ≠ none) :=
  ⟨⟨by decide, by decide⟩,
    c10_matcher_never_rejects.2 sampleRoot sampleDate [sampleSchemaAB]
      [sampleJobErr] [] _ (by decide) (by decide)⟩

/-! ## Prober lemmas -/

theorem read_rows_ok_length (entry : DiskEntry) (n : Nat)
    (rows : List (List String)) (h : read_rows entry n = .ok rows) :
    rows.length ≤ n := by
  unfold read_rows at h
  by_cases h1 : strLower (pathSuffix entry.path) = ".csv"
  · rw [if_pos h1] at h
    simp only [Except.ok.injEq] at h
    subst h
    simp [List.length_take]
  · rw [if_neg h1] at h
    by_cases h2 : strLower (pathSuffix entry.path) = ".xlsx" ∨
        strLower (pathSuffix entry.path) = ".xls"
    · rw [if_pos h2] at h
      simp only [Except.ok.injEq] at h
      subst h
      simp [List.length_take]
    · rw [if_neg h2] at h
      simp at h

/-- C9: probing returns at most `max_rows` rows (default cap 50) however
long the file is; a path that is not a regular file fails with
`FileNotFoundError`, and a regular file whose lower-cased extension is
outside `{.csv, .xlsx, .xls}` fails with the unsupported-format
`ValueError`. -/
theorem c9_prober (entry : DiskEntry) (n : Nat) :
    defaultMaxRows = 50 ∧
    (∀ fp, inspect_file entry n = .ok fp → fp.rows.length ≤ n) ∧
    (entry.isRegularFile = false →
      inspect_file entry n = .error (.fileNotFound "File does not exist")) ∧
    (entry.isRegularFile = true →
      strLower (pathSuffix entry.path) ∉
        ([".csv", ".xlsx", ".xls"] : List String) →
      ∃ msg, inspect_file entry n = .error (.unsupportedFormat msg)) := by
  refine ⟨rfl, ?_, ?_, ?_⟩
  · intro fp h
    unfold inspect_file at h
    split at h
    · simp at h
    · rcases hrr : read_rows entry n with e | rows
      · rw [hrr] at h; simp [Except.map] at h
      · rw [hrr] at h
        simp [Except.map] at h
        have hlen := read_rows_ok_length entry n rows hrr
        rw [← h]
        exact hlen
  · intro hreg
    simp [inspect_file, hreg]
  · intro hreg hext
    have h1 : strLower (pathSuffix entry.path) ≠ ".csv" := by
      intro hc; exact hext (by rw [hc]; simp)
    have h2a : strLower (pathSuffix entry.path) ≠ ".xlsx" := by
      intro hc; exact hext (by rw [hc]; simp)
    have h2b : strLower (pathSuffix entry.path) ≠ ".xls" := by
      intro hc; exact hext (by rw [hc]; simp)
    refine ⟨"Unsupported file extension: " ++
      strLower (pathSuffix entry.path), ?_⟩
    simp [inspect_file, hreg, read_rows, h1, h2a, h2b, Except.map]

theorem c9_prober_witness :
    ((∀ fp, inspect_file sampleEntryCsv 2 = .ok fp →
        fp.rows.length ≤ 2) ∧
      inspect_file sampleEntryCsv 2 =
        .ok { path := sampleEntryCsv.path, extension := ".csv",
              rows := [["A", ""], ["1"]] }) ∧
    (sampleEntryMissing.isRegularFile = false ∧
      inspect_file sampleEntryMissing 50 =
        .error (.fileNotFound "File does not exist")) ∧
    (sampleEntryUnsupported.isRegularFile = true ∧
      strLower (pathSuffix sampleEntryUnsupported.path) ∉
        ([".csv", ".xlsx", ".xls"] : List String) ∧
      ∃ msg, inspect_file sampleEntryUnsupported 50 =
        .error (.unsupportedFormat msg)) :=
  ⟨⟨(c9_prober sampleEntryCsv 2).2.1, rfl⟩,
   ⟨by decide, (c9_prober sampleEntryMissing 50).2.2.1 (by decide)⟩,
   ⟨by decide, by decide,
    (c9_prober sampleEntryUnsupported 50).2.2.2 (by decide) (by decide)⟩⟩

/-! ## Loader lemmas -/

theorem missingKeys_nil_iff (d : RawSchemaData) :
    missingKeys d = [] ↔ schemaDataValid d = true := by
  cases h1 : optStrMissing d.id <;>
    cases h2 : optStrMissing d.source_system <;>
      cases h3 : optStrMissing d.dataset_name <;>
        cases h4 : optListMissing d.file_patterns <;>
          cases h5 : optListMissing d.required_columns <;>
            simp [missingKeys, schemaDataValid, h1, h2, h3, h4, h5]

theorem load_schema_valid (name : String) (d : RawSchemaData)
    (h : schemaDataValid d = true) :
    load_schema name d = .ok (schemaOfData d) := by
  have hm : missingKeys d = [] := (missingKeys_nil_iff d).mpr h
  simp [load_schema, hm]

theorem load_schema_invalid (name : String) (d : RawSchemaData)
    (h : schemaDataValid d = false) :
    ∃ msg, load_schema name d = .error msg := by
  have hm : missingKeys d ≠ [] := by
    intro hc
    rw [(missingKeys_nil_iff d).mp hc] at h
    exact absurd h (by simp)
  refine ⟨"Schema file " ++ name ++ " is missing required keys: " ++
    String.intercalate ", " (missingKeys d), ?_⟩
  simp [load_schema, hm]

theorem mapM_ok_of_all {α β : Type} (f : α → Except String β) (g : α → β) :
    ∀ l : List α, (∀ a ∈ l, f a = .ok (g a)) →
      l.mapM f = .ok (l.map g) := by
  intro l
  induction l with
  | nil => intro _; rfl
  | cons x xs ih =>
      intro h
      rw [List.mapM_cons, h x (List.mem_cons_self x xs),
        ih (fun a ha => h a (List.mem_cons_of_mem x ha))]
      rfl

theorem mapM_error_of_exists {α β : Type} (f : α → Except String β) :
    ∀ l : List α, (∃ a ∈ l, ∃ msg, f a = .error msg) →
      ∃ msg, l.mapM f = .error msg := by
  intro l
  induction l with
  | nil => rintro ⟨a, ha, _⟩; simp at ha
  | cons x xs ih =>
      rintro ⟨a, ha, msg, herr⟩
      rw [List.mapM_cons]
      rcases hx : f x with e | v
      · exact ⟨e, rfl⟩
      · rcases List.mem_cons.mp ha with rfl | hmem
        · rw [hx] at herr; simp at herr
        · obtain ⟨msg2, hm2⟩ := ih ⟨a, hmem, msg, herr⟩
          rw [hm2]
          exact ⟨msg2, rfl⟩

/-- C8: loading fails outright when the schema directory is missing;
with every definition valid (non-empty id, source system, dataset name,
file patterns, and required columns) it returns exactly the schemas of
the definition files in filename order (a sorted permutation of the
directory listing); and any definition with such a key absent, null,
empty-list, or empty-string makes the whole load fail, producing no
partial catalog. -/
theorem c8_loader (entries : List (String × RawSchemaData)) :
    load_all_schemas none = .error "Schema directory does not exist" ∧
    ((∀ e ∈ entries, schemaDataValid e.2 = true) →
      load_all_schemas (some entries) =
        .ok ((sortByName entries).map (fun e => schemaOfData e.2)) ∧
      ((sortByName entries).map Prod.fst).Sorted (· ≤ ·) ∧
      (sortByName entries).Perm entries) ∧
    ((∃ e ∈ entries, schemaDataValid e.2 = false) →
      ∃ msg, load_all_schemas (some entries) = .error msg) := by
  refine ⟨rfl, ?_, ?_⟩
  · intro hvalid
    refine ⟨?_, ?_, ?_⟩
    · have hdef : load_all_schemas (some entries) =
          (sortByName entries).mapM
            (fun e : String × RawSchemaData => load_schema e.1 e.2) := rfl
      rw [hdef]
      apply mapM_ok_of_all
        (fun e : String × RawSchemaData => load_schema e.1 e.2)
        (fun e : String × RawSchemaData => schemaOfData e.2)
      intro a ha
      have hamem : a ∈ entries := by
        have := List.perm_insertionSort
          (fun a b : String × RawSchemaData => a.1 ≤ b.1) entries
        exact this.mem_iff.mp ha
      exact load_schema_valid a.1 a.2 (hvalid a hamem)
    · have hsorted := List.sorted_insertionSort
        (fun a b : String × RawSchemaData => a.1 ≤ b.1) entries
      exact List.pairwise_map.mpr hsorted
    · exact List.perm_insertionSort _ entries
  · rintro ⟨e, he, hinv⟩
    have hdef : load_all_schemas (some entries) =
        (sortByName entries).mapM
          (fun e : String × RawSchemaData => load_schema e.1 e.2) := rfl
    rw [hdef]
    apply mapM_error_of_exists
    refine ⟨e, ?_, ?_⟩
    · have := List.perm_insertionSort
        (fun a b : String × RawSchemaData => a.1 ≤ b.1) entries
      exact this.mem_iff.mpr he
    · exact load_schema_invalid e.1 e.2 hinv

theorem c8_loader_witness :
    ((∀ e ∈ sampleEntriesValid, schemaDataValid e.2 = true) ∧
      load_all_schemas (some sampleEntriesValid) =
        .ok ((sortByName sampleEntriesValid).map
          (fun e => schemaOfData e.2)) ∧
      ((sortByName sampleEntriesValid).map Prod.fst).Sorted (· ≤ ·) ∧
      (sortByName sampleEntriesValid).Perm sampleEntriesValid) ∧
    ((∃ e ∈ sampleEntriesInvalid, schemaDataValid e.2 = false) ∧
      ∃ msg, load_all_schemas (some sampleEntriesInvalid) = .error msg) :=
  ⟨⟨by decide, (c8_loader sampleEntriesValid).2.1 (by decide)⟩,
   ⟨by decide, (c8_loader sampleEntriesInvalid).2.2 (by decide)⟩⟩

/-! ## Decimal rendering and parsing lemmas -/

theorem charDigitVal_digitChar (k : Nat) (h : k < 10) :
    charDigitVal (digitChar k) = some k := by
  interval_cases k <;> rfl

theorem digitChar_isDigit (k : Nat) : (digitChar k).isDigit = true := by
  unfold digitChar
  split_ifs <;> decide

theorem natToDigitsAux_isDigit :
    ∀ (fuel n : Nat) (c : Char), c ∈ natToDigitsAux fuel n →
      c.isDigit = true := by
  intro fuel
  induction fuel with
  | zero => intro n c hc; simp [natToDigitsAux] at hc
  | succ f ih =>
      intro n c hc
      unfold natToDigitsAux at hc
      by_cases h10 : n < 10
      · rw [if_pos h10] at hc
        simp at hc
        rw [hc]
        exact digitChar_isDigit n
      · rw [if_neg h10] at hc
        rcases List.mem_append.mp hc with hm | hm
        · exact ih (n / 10) c hm
        · simp at hm
          rw [hm]
          exact digitChar_isDigit (n % 10)

theorem digitsVal_snoc (a : List Char) (c : Char) :
    digitsVal (a ++ [c]) =
      (digitsVal a).bind
        (fun v => (charDigitVal c).map (fun d => 10 * v + d)) := by
  simp [digitsVal, List.foldl_append]

theorem digitsVal_natToDigitsAux :
    ∀ (fuel n : Nat), n < fuel →
      digitsVal (natToDigitsAux fuel n) = some n := by
  intro fuel
  induction fuel with
  | zero => intro n h; omega
  | succ f ih =>
      intro n h
      unfold natToDigitsAux
      by_cases h10 : n < 10
      · rw [if_pos h10]
        simp [digitsVal, charDigitVal_digitChar n h10]
      · rw [if_neg h10]
        rw [digitsVal_snoc, ih (n / 10) (by omega)]
        simp [charDigitVal_digitChar (n % 10) (by omega)]
        omega

theorem digitsVal_natToDigits (n : Nat) :
    digitsVal (natToDigits n) = some n :=
  digitsVal_natToDigitsAux (n + 1) n (by omega)

theorem natToDigits_ne_nil (n : Nat) : natToDigits n ≠ [] := by
  unfold natToDigits natToDigitsAux
  by_cases h10 : n < 10
  · simp [h10]
  · simp [h10]

theorem parseDecimal_natToDigits (n : Nat) :
    parseDecimal (natToDigits n) = some n := by
  unfold parseDecimal
  rw [if_neg (by simpa using natToDigits_ne_nil n)]
  exact digitsVal_natToDigits n

theorem digitsVal_cons_zero (cs : List Char) :
    digitsVal ('0' :: cs) = digitsVal cs := rfl

theorem pad2_data (n : Nat) :
    (pad2 n).data =
      if n < 10 then '0' :: natToDigits n else natToDigits n := by
  unfold pad2 natToStr
  by_cases h : n < 10 <;> simp [h, String.data_append]

theorem pad4_data (n : Nat) :
    (pad4 n).data =
      if n < 10 then '0' :: '0' :: '0' :: natToDigits n
      else if n < 100 then '0' :: '0' :: natToDigits n
      else if n < 1000 then '0' :: natToDigits n
      else natToDigits n := by
  unfold pad4 natToStr
  by_cases h1 : n < 10
  · simp [h1, String.data_append]
  · by_cases h2 : n < 100
    · simp [h1, h2, String.data_append]
    · by_cases h3 : n < 1000 <;> simp [h1, h2, h3, String.data_append]

theorem parseDecimal_pad2 (n : Nat) :
    parseDecimal (pad2 n).data = some n := by
  rw [pad2_data]
  by_cases h : n < 10
  · rw [if_pos h]
    unfold parseDecimal
    rw [if_neg (by simp)]
    rw [digitsVal_cons_zero]
    exact digitsVal_natToDigits n
  · rw [if_neg h]
    exact parseDecimal_natToDigits n

theorem parseDecimal_pad4 (n : Nat) :
    parseDecimal (pad4 n).data = some n := by
  rw [pad4_data]
  by_cases h1 : n < 10
  · rw [if_pos h1]
    unfold parseDecimal
    rw [if_neg (by simp)]
    rw [digitsVal_cons_zero, digitsVal_cons_zero, digitsVal_cons_zero]
    exact digitsVal_natToDigits n
  · rw [if_neg h1]
    by_cases h2 : n < 100
    · rw [if_pos h2]
      unfold parseDecimal
      rw [if_neg (by simp)]
      rw [digitsVal_cons_zero, digitsVal_cons_zero]
      exact digitsVal_natToDigits n
    · rw [if_neg h2]
      by_cases h3 : n < 1000
      · rw [if_pos h3]
        unfold parseDecimal
        rw [if_neg (by simp)]
        rw [digitsVal_cons_zero]
        exact digitsVal_natToDigits n
      · rw [if_neg h3]
        exact parseDecimal_natToDigits n

theorem pad2_isDigit (n : Nat) (c : Char) (h : c ∈ (pad2 n).data) :
    c.isDigit = true := by
  rw [pad2_data] at h
  by_cases h10 : n < 10
  · rw [if_pos h10] at h
    rcases List.mem_cons.mp h with rfl | hm
    · decide
    · exact natToDigitsAux_isDigit _ _ c hm
  · rw [if_neg h10] at h
    exact natToDigitsAux_isDigit _ _ c h

theorem pad4_isDigit (n : Nat) (c : Char) (h : c ∈ (pad4 n).data) :
    c.isDigit = true := by
  rw [pad4_data] at h
  by_cases h1 : n < 10
  · rw [if_pos h1] at h
    simp only [List.mem_cons] at h
    rcases h with rfl | rfl | rfl | hm
    · decide
    · decide
    · decide
    · exact natToDigitsAux_isDigit _ _ c hm
  · rw [if_neg h1] at h
    by_cases h2 : n < 100
    · rw [if_pos h2] at h
      simp only [List.mem_cons] at h
      rcases h with rfl | rfl | hm
      · decide
      · decide
      · exact natToDigitsAux_isDigit _ _ c hm
    · rw [if_neg h2] at h
      by_cases h3 : n < 1000
      · rw [if_pos h3] at h
        simp only [List.mem_cons] at h
        rcases h with rfl | hm
        · decide
        · exact natToDigitsAux_isDigit _ _ c hm
      · rw [if_neg h3] at h
        exact natToDigitsAux_isDigit _ _ c h

/-! ## Character splitting lemmas -/

theorem splitOnChar_no_sep (sep : Char) :
    ∀ a : List Char, sep ∉ a → splitOnChar sep a = [a] := by
  intro a
  induction a with
  | nil => intro _; rfl
  | cons c cs ih =>
      intro h
      have hc : c ≠ sep := fun hcc => h (hcc ▸ List.mem_cons_self c cs)
      have hcs : sep ∉ cs := fun hm => h (List.mem_cons_of_mem c hm)
      simp only [splitOnChar, if_neg hc]
      rw [ih hcs]

theorem splitOnChar_append_sep (sep : Char) :
    ∀ (a rest : List Char), sep ∉ a →
      splitOnChar sep (a ++ sep :: rest) = a :: splitOnChar sep rest := by
  intro a
  induction a with
  | nil => intro rest _; simp [splitOnChar]
  | cons c cs ih =>
      intro rest h
      have hc : c ≠ sep := fun hcc => h (hcc ▸ List.mem_cons_self c cs)
      have hcs : sep ∉ cs := fun hm => h (List.mem_cons_of_mem c hm)
      simp only [List.cons_append, splitOnChar, if_neg hc, List.append_eq]
      rw [ih rest hcs]

theorem dropCharsPrefix_append :
    ∀ (p r : List Char), dropCharsPrefix p (p ++ r) = some r := by
  intro p
  induction p with
  | nil => intro r; rfl
  | cons c cs ih =>
      intro r
      simp only [List.cons_append, dropCharsPrefix, if_pos rfl]
      exact ih r

theorem dropPrefixSeg_append :
    ∀ (p r : List String), dropPrefixSeg p (p ++ r) = some r := by
  intro p
  induction p with
  | nil => intro r; rfl
  | cons c cs ih =>
      intro r
      simp only [List.cons_append, dropPrefixSeg, if_pos rfl]
      exact ih r

/-! ## Load-date segment lemmas -/

theorem dateToIso_data (D : Date) :
    (dateToIso D).data =
      (pad4 D.year).data ++
        '-' :: ((pad2 D.month).data ++ '-' :: (pad2 D.day).data) := by
  unfold dateToIso
  simp [String.data_append]

theorem splitOnChar_dateToIso (D : Date) :
    splitOnChar '-' (dateToIso D).data =
      [(pad4 D.year).data, (pad2 D.month).data, (pad2 D.day).data] := by
  rw [dateToIso_data]
  have h4 : '-' ∉ (pad4 D.year).data := by
    intro hm
    have := pad4_isDigit D.year '-' hm
    exact absurd this (by decide)
  have h2 : '-' ∉ (pad2 D.month).data := by
    intro hm
    have := pad2_isDigit D.month '-' hm
    exact absurd this (by decide)
  have h2' : '-' ∉ (pad2 D.day).data := by
    intro hm
    have := pad2_isDigit D.day '-' hm
    exact absurd this (by decide)
  rw [splitOnChar_append_sep '-' _ _ h4,
    splitOnChar_append_sep '-' _ _ h2,
    splitOnChar_no_sep '-' _ h2']

theorem parseLoadDateSeg_roundtrip (D : Date) :
    parseLoadDateSeg ("load_date=" ++ dateToIso D) = some D := by
  unfold parseLoadDateSeg
  rw [String.data_append, dropCharsPrefix_append, Option.some_bind]
  rw [splitOnChar_dateToIso]
  show (parseDecimal (pad4 D.year).data).bind (fun yy =>
    (parseDecimal (pad2 D.month).data).bind (fun mm =>
      Option.map (fun dd => ({ year := yy, month := mm, day := dd } : Date))
        (parseDecimal (pad2 D.day).data))) = some D
  rw [parseDecimal_pad4 D.year, Option.some_bind,
    parseDecimal_pad2 D.month, Option.some_bind,
    parseDecimal_pad2 D.day]
  rfl

theorem dateToIso_chars (D : Date) (c : Char)
    (h : c ∈ (dateToIso D).data) : c.isDigit = true ∨ c = '-' := by
  rw [dateToIso_data] at h
  rcases List.mem_append.mp h with hm | hm
  · exact Or.inl (pad4_isDigit D.year c hm)
  · rcases List.mem_cons.mp hm with rfl | hm2
    · exact Or.inr rfl
    · rcases List.mem_append.mp hm2 with hm3 | hm3
      · exact Or.inl (pad2_isDigit D.month c hm3)
      · rcases List.mem_cons.mp hm3 with rfl | hm4
        · exact Or.inr rfl
        · exact Or.inl (pad2_isDigit D.day c hm4)

theorem segmentsOf_no_slash (s : String) (hne : s.data ≠ [])
    (h : '/' ∉ s.data) : segmentsOf s = [s] := by
  unfold segmentsOf
  rw [splitOnChar_no_sep '/' s.data h]
  have hs : s ≠ "" := by
    intro hc
    rw [hc] at hne
    exact hne rfl
  simp [hs]

theorem loadDateSeg_wf (D : Date) :
    segmentsOf ("load_date=" ++ dateToIso D) =
      ["load_date=" ++ dateToIso D] := by
  apply segmentsOf_no_slash
  · rw [String.data_append]
    have : "load_date=".data = ['l', 'o', 'a', 'd', '_', 'd', 'a', 't',
      'e', '='] := by decide
    rw [this]
    simp
  · rw [String.data_append]
    intro hm
    rcases List.mem_append.mp hm with hm1 | hm2
    · have : "load_date=".data = ['l', 'o', 'a', 'd', '_', 'd', 'a', 't',
        'e', '='] := by decide
      rw [this] at hm1
      simp at hm1
    · rcases dateToIso_chars D '/' hm2 with hd | hd
      · exact absurd hd (by decide)
      · exact absurd hd (by decide)

/-! ## C6: router path law and round trip -/

/-- C6 counterexample: when a schema's source system contains a path
separator, `pathlib`'s `/` splits it into two segments, so parsing the
produced path by its segments cannot recover the source system: the
round-trip clause of the claim fails for this schema. -/
theorem c6_counterexample :
    parseRawTargetPath sampleRoot
        (build_raw_target_path sampleRoot sampleSchemaSlash sampleDate
          "f.csv") ≠
      some (sampleSchemaSlash.source_system,
        sampleSchemaSlash.dataset_name, sampleDate) := by
  decide

/-- C6 (amended: the schema's source system and dataset name and the
filename are non-empty, relative, separator-free strings — true of all
realistic schema identifiers and of every filename listed from the drop
zone): the router is a pure function producing exactly the three
documented path shapes, and parsing the matched path by its segments
recovers source system, dataset name, and load date exactly. -/
theorem c6_router_roundtrip (root : Path) (S : Schema) (D : Date)
    (F : String) (hs : wfSegment S.source_system)
    (hd : wfSegment S.dataset_name) (hf : wfSegment F) :
    build_raw_target_path root S D F =
      (root : List String) ++ ["raw", S.source_system, S.dataset_name,
        "load_date=" ++ dateToIso D, F] ∧
    build_unclassified_path root F =
      (root : List String) ++ ["drop_zone", "unclassified", F] ∧
    build_rejected_path root F =
      (root : List String) ++ ["drop_zone", "rejected", F] ∧
    parseRawTargetPath root (build_raw_target_path root S D F) =
      some (S.source_system, S.dataset_name, D) := by
  have hbuild : build_raw_target_path root S D F =
      (root : List String) ++ ["raw", S.source_system, S.dataset_name,
        "load_date=" ++ dateToIso D, F] := by
    rw [build_raw_eq root S D F hs hd hf, loadDateSeg_wf D]
    simp
  refine ⟨hbuild, build_unclassified_eq root F hf,
    build_rejected_eq root F hf, ?_⟩
  rw [hbuild]
  unfold parseRawTargetPath
  rw [dropPrefixSeg_append]
  simp only [if_pos rfl]
  rw [parseLoadDateSeg_roundtrip D]
  rfl

theorem c6_router_roundtrip_witness :
    (wfSegment sampleSchemaAB.source_system ∧
      wfSegment sampleSchemaAB.dataset_name ∧
      wfSegment "acct_2024.csv") ∧
    (build_raw_target_path sampleRoot sampleSchemaAB sampleDate
        "acct_2024.csv" =
      (sampleRoot : List String) ++ ["raw", sampleSchemaAB.source_system,
        sampleSchemaAB.dataset_name, "load_date=" ++ dateToIso sampleDate,
        "acct_2024.csv"] ∧
    build_unclassified_path sampleRoot "acct_2024.csv" =
      (sampleRoot : List String) ++
        ["drop_zone", "unclassified", "acct_2024.csv"] ∧
    build_rejected_path sampleRoot "acct_2024.csv" =
      (sampleRoot : List String) ++
        ["drop_zone", "rejected", "acct_2024.csv"] ∧
    parseRawTargetPath sampleRoot
        (build_raw_target_path sampleRoot sampleSchemaAB sampleDate
          "acct_2024.csv") =
      some (sampleSchemaAB.source_system, sampleSchemaAB.dataset_name,
        sampleDate)) :=
  ⟨⟨by decide, by decide, by decide⟩,
    c6_router_roundtrip sampleRoot sampleSchemaAB sampleDate
      "acct_2024.csv" (by decide) (by decide) (by decide)⟩

theorem c4_header_discovery_witness :
    sampleSchemaAB.required_columns ≠ [] ∧
    ((∀ i, (find_header_row_for_schema sampleSchemaAB
          [["x"], ["A", "B"]]).2.1 = some i ↔
        (i < ([["x"], ["A", "B"]] : List (List String)).length ∧
          headerQualifiesSpec sampleSchemaAB
            ([["x"], ["A", "B"]].getD i []) = true ∧
          ∀ j, j < i →
            headerQualifiesSpec sampleSchemaAB
              ([["x"], ["A", "B"]].getD j []) = false)) ∧
    ((find_header_row_for_schema sampleSchemaAB
          [["x"], ["A", "B"]]).1 = false ↔
        ∀ row ∈ [["x"], ["A", "B"]],
          headerQualifiesSpec sampleSchemaAB row = false)) :=
  ⟨by decide,
    c4_header_discovery sampleSchemaAB [["x"], ["A", "B"]] (by decide)⟩

end DropZone
